import Mathlib

/-!
Shallow embedding of the `ddns` DNS server (Rust) in Lean 4, together with
theorems settling the frozen claims about its specification.

Modelling conventions:
* Bytes are `Nat`s; a buffer (`FixedBuf` read side) is a `List Nat` consumed
  from the front.  Every reader returns `Except DnsError α × List Nat`, the
  second component being the buffer contents left after the call — also on
  error, mirroring the partially-advanced `&mut FixedBuf` cursor in Rust.
* The write side models `FixedBuf<CAP>` as the accumulated output list plus an
  explicit capacity: `write_bytes` fails with `ResponseBufferFull` when the
  output would exceed the capacity.
* Rust `String` data inside `DnsName` is modelled as its UTF-8 byte list.
* `u8`/`u16`/`u32` are `Nat`s; the places where the Rust types bound values
  are captured by validity predicates in theorem hypotheses.
-/

deriving instance DecidableEq for Except

/-- The `DnsError` enum from `lib.rs`.  `Internal` drops its formatted message
string and `Unreachable` its `file!()/line!()` payload: only the variant is
relevant to control flow. -/
inductive DnsError where
  | InvalidClass
  | InvalidLabel
  | InvalidOpCode
  | NameTooLong
  | NoQuestion
  | NotARequest
  | NotFound
  | ResponseBufferFull
  | QueryHasAdditionalRecords
  | QueryHasAnswer
  | QueryHasNameServer
  | TooManyAdditional
  | TooManyAnswers
  | TooManyLabels
  | TooManyNameServers
  | TooManyQuestions
  | Truncated
  | Internal
  | Unreachable
deriving DecidableEq, Repr

/-- Model of `DnsType` from `dns_type.rs`. -/
inductive DnsType where
  | A
  | AAAA
  | CNAME
  | MX
  | NS
  | PTR
  | SOA
  | TXT
  | ANY
  | Unknown (value : Nat)
deriving DecidableEq, Repr

/-- Model of `DnsType::new` (the `from_number` direction). -/
def DnsType.new (value : Nat) : DnsType :=
  match value with
  | 1 => .A
  | 28 => .AAAA
  | 5 => .CNAME
  | 15 => .MX
  | 2 => .NS
  | 12 => .PTR
  | 6 => .SOA
  | 16 => .TXT
  | 255 => .ANY
  | other => .Unknown other

/-- Model of `DnsType::num` (the `to_number` direction). -/
def DnsType.num : DnsType → Nat
  | .A => 1
  | .AAAA => 28
  | .CNAME => 5
  | .MX => 15
  | .NS => 2
  | .PTR => 12
  | .SOA => 6
  | .TXT => 16
  | .ANY => 255
  | .Unknown other => other

/-- Model of `DnsClass` from `dns_class.rs`. -/
inductive DnsClass where
  | Internet
  | Any
  | Unknown (value : Nat)
deriving DecidableEq, Repr

/-- Model of `DnsClass::new`. -/
def DnsClass.new (value : Nat) : DnsClass :=
  match value with
  | 1 => .Internet
  | 255 => .Any
  | other => .Unknown other

/-- Model of `DnsClass::num`. -/
def DnsClass.num : DnsClass → Nat
  | .Internet => 1
  | .Any => 255
  | .Unknown other => other

/-- Model of `DnsOpCode` from `dns_op_code.rs`. -/
inductive DnsOpCode where
  | Query
  | InverseQuery
  | Status
  | Reserved (value : Nat)
deriving DecidableEq, Repr

/-- Model of `DnsOpCode::new`. -/
def DnsOpCode.new (value : Nat) : DnsOpCode :=
  match value with
  | 0 => .Query
  | 1 => .InverseQuery
  | 2 => .Status
  | other => .Reserved other

/-- Model of `DnsOpCode::num`. -/
def DnsOpCode.num : DnsOpCode → Nat
  | .Query => 0
  | .InverseQuery => 1
  | .Status => 2
  | .Reserved other => other

/-- Model of `DnsResponseCode` from `dns_response_code.rs`. -/
inductive DnsResponseCode where
  | NoError
  | FormatError
  | ServerFailure
  | NameError
  | NotImplemented
  | Refused
  | Reserved (value : Nat)
deriving DecidableEq, Repr

/-- Model of `DnsResponseCode::new`. -/
def DnsResponseCode.new (value : Nat) : DnsResponseCode :=
  match value with
  | 0 => .NoError
  | 1 => .FormatError
  | 2 => .ServerFailure
  | 3 => .NameError
  | 4 => .NotImplemented
  | 5 => .Refused
  | other => .Reserved other

/-- Model of `DnsResponseCode::num`. -/
def DnsResponseCode.num : DnsResponseCode → Nat
  | .NoError => 0
  | .FormatError => 1
  | .ServerFailure => 2
  | .NameError => 3
  | .NotImplemented => 4
  | .Refused => 5
  | .Reserved other => other

/-- A `DnsName` wraps the UTF-8 bytes of its inner `String` (dot-joined,
lowercase when built by `new`, no trailing dot stored). -/
structure DnsName where
  inner : List Nat
deriving DecidableEq, Repr

/-- Model of `DnsName::is_letter` on a byte. -/
def DnsName.is_letter (b : Nat) : Bool :=
  (97 ≤ b && b ≤ 122) || (65 ≤ b && b ≤ 90)

/-- Model of `DnsName::is_letter_digit` on a byte. -/
def DnsName.is_letter_digit (b : Nat) : Bool :=
  DnsName.is_letter b || (48 ≤ b && b ≤ 57)

/-- Model of `DnsName::is_letter_digit_hyphen` on a byte. -/
def DnsName.is_letter_digit_hyphen (b : Nat) : Bool :=
  DnsName.is_letter_digit b || b == 45

/-- Model of `DnsName::is_valid_label` over the label's bytes. -/
def DnsName.is_valid_label (label : List Nat) : Bool :=
  if label.isEmpty || label.length > 63 then false
  else
    DnsName.is_letter (label.headD 0)
      && label.all DnsName.is_letter_digit_hyphen
      && DnsName.is_letter_digit (label.getLastD 0)

/-- Model of `DnsName::is_valid_name`: `value.is_ascii()` and every `'.'`-separated
label valid.  Rust `split('.')` on the byte level is `List.splitOn 46`. -/
def DnsName.is_valid_name (value : List Nat) : Bool :=
  value.all (· < 128) && (value.splitOn 46).all DnsName.is_valid_label

/-- Model of `u8::to_ascii_lowercase` on one byte. -/
def lowerByte (b : Nat) : Nat := if 65 ≤ b ∧ b ≤ 90 then b + 32 else b

/-- Model of `str::to_ascii_lowercase` on a byte list. -/
def lowerBytes (value : List Nat) : List Nat := value.map lowerByte

/-- Model of `DnsName::new`: strip one optional trailing dot, validate, lowercase.
The Rust error `String` payload is dropped (`Option` instead of
`Result<_, String>`). -/
def DnsName.new (value : List Nat) : Option DnsName :=
  let trimmed := if value.getLast? = some 46 then value.dropLast else value
  if trimmed.length > 255 ∨ DnsName.is_valid_name trimmed = false then none
  else some ⟨lowerBytes trimmed⟩

/-- Model of `read_u8` from `lib.rs` (`try_read_byte`): consumes one byte, does not
consume on failure. -/
def readU8 : List Nat → Except DnsError Nat × List Nat
  | [] => (Except.error .Truncated, [])
  | b :: rest => (Except.ok b, rest)

/-- Model of `read_u16_be` from `lib.rs` (`try_read_exact` of two bytes; no
consumption on failure). -/
def readU16 : List Nat → Except DnsError Nat × List Nat
  | b1 :: b2 :: rest => (Except.ok (b1 * 256 + b2), rest)
  | buf => (Except.error .Truncated, buf)

/-- Model of `read_u32_be` from `lib.rs`. -/
def readU32 : List Nat → Except DnsError Nat × List Nat
  | b1 :: b2 :: b3 :: b4 :: rest =>
    (Except.ok (((b1 * 256 + b2) * 256 + b3) * 256 + b4), rest)
  | buf => (Except.error .Truncated, buf)

/-- Sequencing of stateful reads: on error the partially-advanced buffer is
kept, as with `&mut FixedBuf` in Rust. -/
def rbind {α β : Type} (x : Except DnsError α × List Nat)
    (f : α → List Nat → Except DnsError β × List Nat) :
    Except DnsError β × List Nat :=
  match x with
  | (Except.ok a, r) => f a r
  | (Except.error e, r) => (Except.error e, r)

/-- The loop body of `DnsName::read`: up to `fuel` iterations (63 in the
source), accumulating the dot-joined `value`. -/
def readNameLoop : Nat → List Nat → List Nat → Except DnsError DnsName × List Nat
  | 0, _, buf => (Except.error .TooManyLabels, buf)
  | fuel + 1, value, buf =>
    match buf with
    | [] => (Except.error .Truncated, [])
    | len :: rest =>
      if len = 0 then
        if value.length > 255 then (Except.error .NameTooLong, rest)
        else (Except.ok ⟨value⟩, rest)
      else if rest.length < len then (Except.error .Truncated, rest)
      else
        let label := rest.take len
        if DnsName.is_valid_label label then
          readNameLoop fuel (if value.isEmpty then label else value ++ 46 :: label)
            (rest.drop len)
        else (Except.error .InvalidLabel, rest.drop len)

/-- Model of `DnsName::read`: length-prefixed labels, at most 63 loop iterations.
A label failing UTF-8 decoding or label validation both yield
`InvalidLabel`, which the single byte-level validity check captures. -/
def DnsName.read (buf : List Nat) : Except DnsError DnsName × List Nat :=
  readNameLoop 63 [] buf

/-- Model of `FixedBuf::write_bytes` (with `.map_err(|_| ResponseBufferFull)` as every
caller in this crate applies): append, failing when capacity is exceeded. -/
def writeBytes (cap : Nat) (out bytes : List Nat) : Except DnsError (List Nat) :=
  if out.length + bytes.length ≤ cap then Except.ok (out ++ bytes)
  else Except.error .ResponseBufferFull

/-- Model of `write_u16_be` from `lib.rs` (`u16::to_be_bytes`). -/
def writeU16 (cap : Nat) (out : List Nat) (value : Nat) : Except DnsError (List Nat) :=
  writeBytes cap out [value / 256 % 256, value % 256]

/-- Model of `write_u32_be` from `lib.rs` (`u32::to_be_bytes`). -/
def writeU32 (cap : Nat) (out : List Nat) (value : Nat) : Except DnsError (List Nat) :=
  writeBytes cap out [value / 16777216 % 256, value / 65536 % 256, value / 256 % 256,
    value % 256]

/-- The label loop of `DnsName::write` followed by the terminating zero
byte. -/
def writeNameLabels (cap : Nat) : List (List Nat) → List Nat → Except DnsError (List Nat)
  | [], out => writeBytes cap out [0]
  | label :: labels, out =>
    if label.length > 63 then Except.error .Unreachable
    else do
      let out ← writeBytes cap out [label.length]
      let out ← writeBytes cap out label
      writeNameLabels cap labels out

/-- Model of `DnsName::write`: length-prefixed labels of `self.0.split('.')`, then a
zero terminator. -/
def DnsName.write (n : DnsName) (cap : Nat) (out : List Nat) : Except DnsError (List Nat) :=
  writeNameLabels cap (n.inner.splitOn 46) out

/-- Model of `DnsName::as_bytes`: encode into a fresh `FixedBuf<256>`. -/
def DnsName.as_bytes (n : DnsName) : Except DnsError (List Nat) :=
  n.write 256 []

/-- Model of `DnsType::read`. -/
def DnsType.read (buf : List Nat) : Except DnsError DnsType × List Nat :=
  rbind (readU16 buf) fun v r => (Except.ok (DnsType.new v), r)

/-- Model of `DnsType::write`. -/
def DnsType.write (t : DnsType) (cap : Nat) (out : List Nat) : Except DnsError (List Nat) :=
  writeU16 cap out t.num

/-- Model of `DnsClass::read`. -/
def DnsClass.read (buf : List Nat) : Except DnsError DnsClass × List Nat :=
  rbind (readU16 buf) fun v r => (Except.ok (DnsClass.new v), r)

/-- Model of `DnsClass::write`. -/
def DnsClass.write (c : DnsClass) (cap : Nat) (out : List Nat) : Except DnsError (List Nat) :=
  writeU16 cap out c.num

/-- Model of `DnsMessageHeader` from `dns_message_header.rs`. -/
structure DnsMessageHeader where
  id : Nat
  is_response : Bool
  op_code : DnsOpCode
  authoritative_answer : Bool
  truncated : Bool
  recursion_desired : Bool
  recursion_available : Bool
  response_code : DnsResponseCode
  question_count : Nat
  answer_count : Nat
  name_server_count : Nat
  additional_count : Nat
deriving DecidableEq, Repr

/-- Model of `DnsMessageHeader::read`: bit-unpacking of the 12-byte header.  Rust
`b >> k` and `b & m` are `Nat.shiftRight`/`Nat.land` here. -/
def DnsMessageHeader.read (buf : List Nat) : Except DnsError DnsMessageHeader × List Nat :=
  rbind (readU16 buf) fun id r =>
  rbind (readU8 r) fun b r =>
  let is_response := b >>> 7 == 1
  let op_code := DnsOpCode.new ((b >>> 3) &&& 15)
  let authoritative_answer := (b >>> 2) &&& 1 == 1
  let truncated := (b >>> 1) &&& 1 == 1
  let recursion_desired := b &&& 1 == 1
  rbind (readU8 r) fun b2 r =>
  let recursion_available := b2 >>> 7 == 1
  let response_code := DnsResponseCode.new (b2 &&& 15)
  rbind (readU16 r) fun question_count r =>
  rbind (readU16 r) fun answer_count r =>
  rbind (readU16 r) fun name_server_count r =>
  rbind (readU16 r) fun additional_count r =>
  (Except.ok ({
    id := id
    is_response := is_response
    op_code := op_code
    authoritative_answer := authoritative_answer
    truncated := truncated
    recursion_desired := recursion_desired
    recursion_available := recursion_available
    response_code := response_code
    question_count := question_count
    answer_count := answer_count
    name_server_count := name_server_count
    additional_count := additional_count } : DnsMessageHeader), r)

/-- Model of `DnsMessageHeader::write`: bit-packing.  `op_code.num() << 3` is a `u8`
shift, hence the `% 256`. -/
def DnsMessageHeader.write (h : DnsMessageHeader) (cap : Nat) (out : List Nat) :
    Except DnsError (List Nat) := do
  let out ← writeBytes cap out [h.id / 256 % 256, h.id % 256]
  let b := (cond h.is_response 128 0) ||| ((h.op_code.num <<< 3) % 256)
    ||| (cond h.authoritative_answer 4 0) ||| (cond h.truncated 2 0)
    ||| (cond h.recursion_desired 1 0)
  let out ← writeBytes cap out [b]
  let b2 := (cond h.recursion_available 128 0) ||| h.response_code.num
  let out ← writeBytes cap out [b2]
  let out ← writeU16 cap out h.question_count
  let out ← writeU16 cap out h.answer_count
  let out ← writeU16 cap out h.name_server_count
  writeU16 cap out h.additional_count

/-- Model of `DnsQuestion` from `dns_question.rs` (`class` is a Lean keyword, hence
`class_`). -/
structure DnsQuestion where
  name : DnsName
  typ : DnsType
  class_ : DnsClass
deriving DecidableEq, Repr

/-- Model of `DnsQuestion::read`: name, type, class; rejects classes other than
Internet/Any. -/
def DnsQuestion.read (buf : List Nat) : Except DnsError DnsQuestion × List Nat :=
  rbind (DnsName.read buf) fun name r =>
  rbind (DnsType.read r) fun typ r =>
  rbind (DnsClass.read r) fun class_ r =>
  if class_ ≠ DnsClass.Internet ∧ class_ ≠ DnsClass.Any then
    (Except.error .InvalidClass, r)
  else (Except.ok ⟨name, typ, class_⟩, r)

/-- Model of `DnsQuestion::write`. -/
def DnsQuestion.write (q : DnsQuestion) (cap : Nat) (out : List Nat) :
    Except DnsError (List Nat) := do
  let out ← q.name.write cap out
  let out ← q.typ.write cap out
  q.class_.write cap out

/-- Model of `DnsRecord` from `dns_record.rs`.  `Ipv4Addr`/`Ipv6Addr` are their octet
lists (4 and 16 bytes by construction in Rust; a validity predicate carries
that in theorems). -/
inductive DnsRecord where
  | A (name : DnsName) (ipv4_addr : List Nat)
  | AAAA (name : DnsName) (ipv6_addr : List Nat)
  | CNAME (name : DnsName) (target : DnsName)
  | Unknown (name : DnsName) (typ : DnsType)
deriving DecidableEq, Repr

/-- Model of `DnsRecord::name`. -/
def DnsRecord.name : DnsRecord → DnsName
  | .A n _ => n
  | .AAAA n _ => n
  | .CNAME n _ => n
  | .Unknown n _ => n

/-- Model of `DnsRecord::typ`. -/
def DnsRecord.typ : DnsRecord → DnsType
  | .A _ _ => .A
  | .AAAA _ _ => .AAAA
  | .CNAME _ _ => .CNAME
  | .Unknown _ t => .Unknown t.num

/-- Model of `DnsRecord::read_rdata`: a 16-bit length then exactly that many bytes
(copied out into their own buffer). -/
def DnsRecord.read_rdata (buf : List Nat) : Except DnsError (List Nat) × List Nat :=
  rbind (readU16 buf) fun len r =>
  if r.length < len then (Except.error .Truncated, r)
  else (Except.ok (r.take len), r.drop len)

/-- Model of `DnsRecord::read`: name, type, class (Internet/Any only), 32-bit TTL
(read, not retained), RDATA, then dispatch on the type.  `read_exact` takes
the first 4 (16) bytes of the RDATA buffer, failing with `Truncated` when
fewer are present. -/
def DnsRecord.read (buf : List Nat) : Except DnsError DnsRecord × List Nat :=
  rbind (DnsName.read buf) fun name r =>
  rbind (DnsType.read r) fun typ r =>
  rbind (DnsClass.read r) fun class_ r =>
  if class_ ≠ DnsClass.Internet ∧ class_ ≠ DnsClass.Any then
    (Except.error .InvalidClass, r)
  else
  rbind (readU32 r) fun _ttl_seconds r =>
  rbind (DnsRecord.read_rdata r) fun rdata r =>
  match typ with
  | .A =>
    if rdata.length < 4 then (Except.error .Truncated, r)
    else (Except.ok (.A name (rdata.take 4)), r)
  | .AAAA =>
    if rdata.length < 16 then (Except.error .Truncated, r)
    else (Except.ok (.AAAA name (rdata.take 16)), r)
  | .CNAME =>
    match (DnsName.read rdata).1 with
    | Except.ok target => (Except.ok (.CNAME name target), r)
    | Except.error e => (Except.error e, r)
  | .MX | .NS | .PTR | .SOA | .TXT | .ANY | .Unknown _ =>
    (Except.ok (.Unknown name typ), r)

/-- Model of `DnsRecord::write_rdata`: 16-bit length then the bytes (`u16::try_from`
failure is the `Unreachable` arm). -/
def DnsRecord.write_rdata (cap : Nat) (bytes out : List Nat) : Except DnsError (List Nat) :=
  if bytes.length > 65535 then Except.error .Unreachable
  else do
    let out ← writeU16 cap out bytes.length
    writeBytes cap out bytes

/-- Model of `DnsRecord::write`: name, type, class fixed to Internet, TTL fixed to
300, then the type-specific RDATA; `Unknown` records cannot be written. -/
def DnsRecord.write (rec : DnsRecord) (cap : Nat) (out : List Nat) :
    Except DnsError (List Nat) := do
  let out ← rec.name.write cap out
  let out ← rec.typ.write cap out
  let out ← DnsClass.Internet.write cap out
  let out ← writeU32 cap out 300
  match rec with
  | .A _ ipv4_addr => DnsRecord.write_rdata cap ipv4_addr out
  | .AAAA _ ipv6_addr => DnsRecord.write_rdata cap ipv6_addr out
  | .CNAME _ target => do
    let target_bytes ← target.as_bytes
    DnsRecord.write_rdata cap target_bytes out
  | .Unknown _ _ => Except.error .Internal

/-- Model of `DnsMessage` from `dns_message.rs`. -/
structure DnsMessage where
  header : DnsMessageHeader
  questions : List DnsQuestion
  answers : List DnsRecord
  name_servers : List DnsRecord
  additional : List DnsRecord
deriving DecidableEq, Repr

/-- The strict question-section loop of `DnsMessage::read`. -/
def readQuestions : Nat → List Nat → Except DnsError (List DnsQuestion) × List Nat
  | 0, buf => (Except.ok [], buf)
  | n + 1, buf =>
    rbind (DnsQuestion.read buf) fun q r =>
    rbind (readQuestions n r) fun qs r2 => (Except.ok (q :: qs), r2)

/-- The strict record-section loop of `DnsMessage::read` (answers and name
servers). -/
def readRecords : Nat → List Nat → Except DnsError (List DnsRecord) × List Nat
  | 0, buf => (Except.ok [], buf)
  | n + 1, buf =>
    rbind (DnsRecord.read buf) fun rec r =>
    rbind (readRecords n r) fun recs r2 => (Except.ok (rec :: recs), r2)

/-- The tolerant additional-section loop of `DnsMessage::read`: a failed
record read is skipped (the cursor stays where the failed read left it) and
the loop continues until the declared count is exhausted. -/
def readAdditional : Nat → List Nat → List DnsRecord × List Nat
  | 0, buf => ([], buf)
  | n + 1, buf =>
    match DnsRecord.read buf with
    | (Except.ok rec, r) =>
      let (recs, r2) := readAdditional n r
      (rec :: recs, r2)
    | (Except.error _, r) => readAdditional n r

/-- Model of `DnsMessage::read`. -/
def DnsMessage.read (buf : List Nat) : Except DnsError DnsMessage × List Nat :=
  rbind (DnsMessageHeader.read buf) fun header r =>
  rbind (readQuestions header.question_count r) fun questions r =>
  rbind (readRecords header.answer_count r) fun answers r =>
  rbind (readRecords header.name_server_count r) fun name_servers r =>
  let (additional, r2) := readAdditional header.additional_count r
  (Except.ok ({
    header := header
    questions := questions
    answers := answers
    name_servers := name_servers
    additional := additional } : DnsMessage), r2)

/-- The question loop of `DnsMessage::write`. -/
def writeQuestions (cap : Nat) : List DnsQuestion → List Nat → Except DnsError (List Nat)
  | [], out => Except.ok out
  | q :: qs, out => do
    let out ← q.write cap out
    writeQuestions cap qs out

/-- The record loop of `DnsMessage::write`. -/
def writeRecords (cap : Nat) : List DnsRecord → List Nat → Except DnsError (List Nat)
  | [], out => Except.ok out
  | rec :: recs, out => do
    let out ← rec.write cap out
    writeRecords cap recs out

/-- Model of `DnsMessage::write`: header, questions, then the chained
answers/name-servers/additional records. -/
def DnsMessage.write (m : DnsMessage) (cap : Nat) (out : List Nat) :
    Except DnsError (List Nat) := do
  let out ← m.header.write cap out
  let out ← writeQuestions cap m.questions out
  writeRecords cap (m.answers ++ m.name_servers ++ m.additional) out

/-- Model of `DnsMessage::question_count`: the question-list length as a `u16`. -/
def DnsMessage.question_count (m : DnsMessage) : Except DnsError Nat :=
  if m.questions.length > 65535 then Except.error .TooManyQuestions
  else Except.ok m.questions.length

/-- Model of `DnsMessage::answer_response`: the answer message for this request with
the given answer records (the `answers` iterator collected to a list). -/
def DnsMessage.answer_response (m : DnsMessage) (answers : List DnsRecord) :
    Except DnsError DnsMessage := do
  let answer_count ←
    if answers.length > 65535 then Except.error DnsError.TooManyAnswers
    else Except.ok answers.length
  let question_count ← m.question_count
  Except.ok {
    header := {
      id := m.header.id
      is_response := true
      op_code := m.header.op_code
      authoritative_answer := true
      truncated := false
      recursion_desired := m.header.recursion_desired
      recursion_available := false
      response_code := .NoError
      question_count := question_count
      answer_count := answer_count
      name_server_count := 0
      additional_count := 0 }
    questions := m.questions
    answers := answers
    name_servers := []
    additional := [] }

/-- Model of `MultiMap::get_vec` for a multimap collected from an insertion-ordered
list of `(name, record)` pairs, as `serve_udp` builds it: the records whose
key equals `name`, in insertion order, or `None` when there are none. -/
def get_vec (name_to_records : List (DnsName × DnsRecord)) (name : DnsName) :
    Option (List DnsRecord) :=
  let v := (name_to_records.filter (fun p => p.1 = name)).map (fun p => p.2)
  if v.isEmpty then none else some v

/-- Model of `process_request` from `server.rs`. -/
def process_request (name_to_records : List (DnsName × DnsRecord))
    (request : DnsMessage) : Except DnsError DnsMessage :=
  if request.header.is_response then Except.error .NotARequest
  else if request.header.op_code ≠ DnsOpCode.Query then Except.error .InvalidOpCode
  else
    match request.questions with
    | [] => Except.error .NoQuestion
    | question :: _ =>
      match get_vec name_to_records question.name with
      | none => Except.error .NotFound
      | some records =>
        if question.typ = DnsType.ANY then request.answer_response records
        else
          request.answer_response
            (records.filter (fun record => record.typ = question.typ))

/-- Model of `process_datagram` from `server.rs`: decode, process, encode into a fresh
512-byte buffer. -/
def process_datagram (name_to_records : List (DnsName × DnsRecord))
    (bytes : List Nat) : Except DnsError (List Nat) :=
  match (DnsMessage.read bytes).1 with
  | Except.error e => Except.error e
  | Except.ok request =>
    match process_request name_to_records request with
    | Except.error e => Except.error e
    | Except.ok response => response.write 512 []

/-! ### Concrete values shared by several witnesses

The zone of the repository's own integration test:
`A aaa.example.com -> 10.0.0.1` and
`AAAA aaa.example.com -> 2606:2800:220:1:248:1893:25c8:1946`. -/

/-- The name `aaa.example.com` as stored bytes. -/
def aaaExampleCom : DnsName :=
  ⟨[97, 97, 97, 46, 101, 120, 97, 109, 112, 108, 101, 46, 99, 111, 109]⟩

/-- The test zone's A record. -/
def recA : DnsRecord := DnsRecord.A aaaExampleCom [10, 0, 0, 1]

/-- The test zone's AAAA record. -/
def recAAAA : DnsRecord :=
  DnsRecord.AAAA aaaExampleCom
    [0x26, 0x06, 0x28, 0x00, 0x02, 0x20, 0x00, 0x01, 0x02, 0x48, 0x18, 0x93,
      0x25, 0xc8, 0x19, 0x46]

/-- The test zone as the insertion-ordered pair list from which `serve_udp`
builds its multimap. -/
def testZone : List (DnsName × DnsRecord) :=
  [(aaaExampleCom, recA), (aaaExampleCom, recAAAA)]

/-- The header of the test request (a query with `RD` set, one question). -/
def testReqHeader : DnsMessageHeader where
  id := 0x9A9A
  is_response := false
  op_code := .Query
  authoritative_answer := false
  truncated := false
  recursion_desired := true
  recursion_available := false
  response_code := .NoError
  question_count := 1
  answer_count := 0
  name_server_count := 0
  additional_count := 0

/-- A type-A request for `aaa.example.com`. -/
def testReqA : DnsMessage where
  header := testReqHeader
  questions := [⟨aaaExampleCom, DnsType.A, DnsClass.Internet⟩]
  answers := []
  name_servers := []
  additional := []

/-- A type-ANY request for `aaa.example.com`. -/
def testReqANY : DnsMessage where
  header := testReqHeader
  questions := [⟨aaaExampleCom, DnsType.ANY, DnsClass.Internet⟩]
  answers := []
  name_servers := []
  additional := []

/-- Sanity check of the whole embedding against the repository's hard-coded
wire test (`tests/test_dns_server.rs`): the type-A request datagram maps to
exactly the expected response bytes. -/
theorem process_datagram_matches_repo_test :
    process_datagram testZone
      [0x9A, 0x9A, 0x01, 0x20, 0x00, 0x01, 0x00, 0x00, 0x00, 0x00, 0x00, 0x00,
        0x03, 97, 97, 97, 0x07, 101, 120, 97, 109, 112, 108, 101,
        0x03, 99, 111, 109, 0x00, 0x00, 0x01, 0x00, 0x01] =
    Except.ok
      [0x9A, 0x9A, 0x85, 0x00, 0x00, 0x01, 0x00, 0x01, 0x00, 0x00, 0x00, 0x00,
        0x03, 97, 97, 97, 0x07, 101, 120, 97, 109, 112, 108, 101,
        0x03, 99, 111, 109, 0x00, 0x00, 0x01, 0x00, 0x01,
        0x03, 97, 97, 97, 0x07, 101, 120, 97, 109, 112, 108, 101,
        0x03, 99, 111, 109, 0x00, 0x00, 0x01, 0x00, 0x01,
        0x00, 0x00, 0x01, 0x2C, 0x00, 0x04, 10, 0, 0, 1] := by
  decide

/-! ### C5: enumeration round-trips -/

/-- C5 counterexample: the claim asserts
`from_number(to_number(v)) == v` also for the `unknown(n)` variants, but
`DnsType::Unknown(1)` maps to numeric code 1, which `from_number` decodes as
the named variant `A`, not back to `Unknown(1)`. -/
theorem enum_roundtrip_counterexample :
    DnsType.new (DnsType.num (DnsType.Unknown 1)) = DnsType.A ∧
      DnsType.new (DnsType.num (DnsType.Unknown 1)) ≠ DnsType.Unknown 1 := by
  decide

/-- C5 amended: for each of the four enumerations, `from_number` is total and
`to_number(from_number(n)) == n` holds for every numeric code `n`; the other
direction `from_number(to_number(v)) == v` holds for every named variant and
for every unknown/reserved variant whose carried code is not one of the named
codes (equivalently, for every value in the image of `from_number`). -/
theorem enum_roundtrip_amended :
    (∀ n : Nat, (DnsType.new n).num = n)
    ∧ (∀ n : Nat, (DnsClass.new n).num = n)
    ∧ (∀ n : Nat, (DnsOpCode.new n).num = n)
    ∧ (∀ n : Nat, (DnsResponseCode.new n).num = n)
    ∧ (∀ v : DnsType,
        (∀ k, v = DnsType.Unknown k → k ∉ ([1, 28, 5, 15, 2, 12, 6, 16, 255] : List Nat)) →
        DnsType.new v.num = v)
    ∧ (∀ v : DnsClass,
        (∀ k, v = DnsClass.Unknown k → k ∉ ([1, 255] : List Nat)) →
        DnsClass.new v.num = v)
    ∧ (∀ v : DnsOpCode,
        (∀ k, v = DnsOpCode.Reserved k → k ∉ ([0, 1, 2] : List Nat)) →
        DnsOpCode.new v.num = v)
    ∧ (∀ v : DnsResponseCode,
        (∀ k, v = DnsResponseCode.Reserved k → k ∉ ([0, 1, 2, 3, 4, 5] : List Nat)) →
        DnsResponseCode.new v.num = v) := by
  refine ⟨?_, ?_, ?_, ?_, ?_, ?_, ?_, ?_⟩
  · intro n; unfold DnsType.new; split <;> simp_all [DnsType.num]
  · intro n; unfold DnsClass.new; split <;> simp_all [DnsClass.num]
  · intro n; unfold DnsOpCode.new; split <;> simp_all [DnsOpCode.num]
  · intro n; unfold DnsResponseCode.new; split <;> simp_all [DnsResponseCode.num]
  · rintro (_ | _ | _ | _ | _ | _ | _ | _ | _ | k) h <;> try rfl
    have hk := h k rfl
    unfold DnsType.num DnsType.new
    split <;> simp_all
  · rintro (_ | _ | k) h <;> try rfl
    have hk := h k rfl
    unfold DnsClass.num DnsClass.new
    split <;> simp_all
  · rintro (_ | _ | _ | k) h <;> try rfl
    have hk := h k rfl
    unfold DnsOpCode.num DnsOpCode.new
    split <;> simp_all
  · rintro (_ | _ | _ | _ | _ | _ | k) h <;> try rfl
    have hk := h k rfl
    unfold DnsResponseCode.num DnsResponseCode.new
    split <;> simp_all

/-- Witness for the amended C5 theorem at concrete inputs. -/
theorem enum_roundtrip_amended_witness :
    DnsType.new (DnsType.num (DnsType.Unknown 7)) = DnsType.Unknown 7
    ∧ DnsType.new (DnsType.num DnsType.AAAA) = DnsType.AAAA
    ∧ DnsClass.new (DnsClass.num (DnsClass.Unknown 3)) = DnsClass.Unknown 3
    ∧ DnsOpCode.new (DnsOpCode.num (DnsOpCode.Reserved 9)) = DnsOpCode.Reserved 9
    ∧ DnsResponseCode.new (DnsResponseCode.num (DnsResponseCode.Reserved 11)) =
        DnsResponseCode.Reserved 11
    ∧ (DnsType.new 28).num = 28 := by
  refine ⟨?_, ?_, ?_, ?_, ?_, ?_⟩
  · exact enum_roundtrip_amended.2.2.2.2.1 (DnsType.Unknown 7)
      (by intro k hk; cases hk; decide)
  · exact enum_roundtrip_amended.2.2.2.2.1 DnsType.AAAA (by intro k hk; cases hk)
  · exact enum_roundtrip_amended.2.2.2.2.2.1 (DnsClass.Unknown 3)
      (by intro k hk; cases hk; decide)
  · exact enum_roundtrip_amended.2.2.2.2.2.2.1 (DnsOpCode.Reserved 9)
      (by intro k hk; cases hk; decide)
  · exact enum_roundtrip_amended.2.2.2.2.2.2.2 (DnsResponseCode.Reserved 11)
      (by intro k hk; cases hk; decide)
  · exact enum_roundtrip_amended.1 28

/-! ### C9 and C10: DnsName constructor boundaries and the wire-read root name -/

/-- A label of 63 `a` bytes. -/
def label63 : List Nat := List.replicate 63 97

/-- A 255-byte name: four 63-byte labels joined by three dots. -/
def name255 : List Nat := label63 ++ 46 :: label63 ++ 46 :: label63 ++ 46 :: label63

/-- A 256-byte name with every label valid: labels of 63, 63, 63, 62 and 1
bytes joined by four dots. -/
def name256 : List Nat :=
  label63 ++ 46 :: label63 ++ 46 :: label63 ++ 46 :: (List.replicate 62 97 ++ 46 :: [97])

/-- C9: `DnsName::new` boundary enforcement.  A 63-byte label is accepted and
a 64-byte one rejected; a 255-byte name is accepted and a 256-byte name
(every label of which is individually valid, so only the total length is at
fault) is rejected; empty labels — a lone dot, a leading dot, adjacent dots,
and a second trailing dot beyond the single stripped one — are rejected,
while a single trailing dot is stripped and accepted. -/
theorem dns_name_new_boundaries :
    (DnsName.new label63).isSome = true
    ∧ DnsName.new (List.replicate 64 97) = none
    ∧ name255.length = 255
    ∧ (DnsName.new name255).isSome = true
    ∧ name256.length = 256
    ∧ (name256.splitOn 46).all DnsName.is_valid_label = true
    ∧ DnsName.new name256 = none
    ∧ DnsName.new [46] = none
    ∧ DnsName.new [46, 97] = none
    ∧ DnsName.new [97, 46, 46, 98] = none
    ∧ DnsName.new [97, 46, 46] = none
    ∧ DnsName.new [97, 46] = some ⟨[97]⟩ := by
  set_option maxRecDepth 10000 in decide

/-- C10: `DnsName::read` accepts the empty (root) name from the wire — a
leading zero length byte yields `Ok` with the empty name, whatever follows —
even though the text constructor `DnsName::new` rejects the empty string. -/
theorem dns_name_read_accepts_root :
    (∀ rest : List Nat, DnsName.read (0 :: rest) = (Except.ok ⟨[]⟩, rest))
    ∧ DnsName.new [] = none := by
  exact ⟨fun rest => rfl, by decide⟩

/-! ### answer_response helper lemmas (shared by the C1, C2 and C8 proofs) -/

/-- When both counts fit in 16 bits, `answer_response` succeeds with exactly
the message the source constructs. -/
theorem answer_response_ok (m : DnsMessage) (records : List DnsRecord)
    (hr : records.length ≤ 65535) (hq : m.questions.length ≤ 65535) :
    m.answer_response records = Except.ok (DnsMessage.mk
      (DnsMessageHeader.mk m.header.id true m.header.op_code true false
        m.header.recursion_desired false DnsResponseCode.NoError
        m.questions.length records.length 0 0)
      m.questions records [] []) := by
  simp only [DnsMessage.answer_response, DnsMessage.question_count, bind,
    Except.bind, gt_iff_lt]
  rw [if_neg (by omega), if_neg (by omega)]

/-- Lemma: `answer_response` fails — with a too-many error — exactly when a count
exceeds the 16-bit range. -/
theorem answer_response_too_many_iff (m : DnsMessage) (records : List DnsRecord) :
    (m.answer_response records = Except.error DnsError.TooManyAnswers
      ∨ m.answer_response records = Except.error DnsError.TooManyQuestions) ↔
    (65535 < records.length ∨ 65535 < m.questions.length) := by
  by_cases hr : 65535 < records.length
  · simp only [DnsMessage.answer_response, bind, Except.bind, gt_iff_lt,
      if_pos hr]
    simp [hr]
  · by_cases hq : 65535 < m.questions.length
    · simp only [DnsMessage.answer_response, DnsMessage.question_count, bind,
        Except.bind, gt_iff_lt, if_neg hr, if_pos hq]
      simp [hq]
    · simp only [DnsMessage.answer_response, DnsMessage.question_count, bind,
        Except.bind, gt_iff_lt, if_neg hr, if_neg hq]
      simp [hr, hq]

/-- Lemma: `answer_response` never fails with `NotFound`. -/
theorem answer_response_ne_notfound (m : DnsMessage) (records : List DnsRecord) :
    m.answer_response records ≠ Except.error DnsError.NotFound := by
  intro hcontra
  by_cases hr : 65535 < records.length
  · have := (answer_response_too_many_iff m records).mpr (Or.inl hr)
    rcases this with h3 | h3 <;> rw [hcontra] at h3 <;> exact absurd h3 (by simp)
  · by_cases hq : 65535 < m.questions.length
    · have := (answer_response_too_many_iff m records).mpr (Or.inr hq)
      rcases this with h3 | h3 <;> rw [hcontra] at h3 <;> exact absurd h3 (by simp)
    · have := answer_response_ok m records (by omega) (by omega)
      rw [hcontra] at this
      exact absurd this (by simp)

/-! ### C8: answer_response -/

/-- C8: `answer_response` produces a message with `QR=1`, `AA=1`, `TC=0`,
`RD` copied from the request, `RA=0`, `RCODE=NoError`, the request's question
list echoed, the supplied records as answers, and empty authority/additional
sections; it fails, with `TooManyAnswers` or `TooManyQuestions`, exactly when
the record count or the question count does not fit in a 16-bit count
field. -/
theorem answer_response_spec (m : DnsMessage) (records : List DnsRecord) :
    (records.length ≤ 65535 → m.questions.length ≤ 65535 →
      m.answer_response records = Except.ok (DnsMessage.mk
        (DnsMessageHeader.mk m.header.id true m.header.op_code true false
          m.header.recursion_desired false DnsResponseCode.NoError
          m.questions.length records.length 0 0)
        m.questions records [] []))
    ∧ ((m.answer_response records = Except.error DnsError.TooManyAnswers
        ∨ m.answer_response records = Except.error DnsError.TooManyQuestions) ↔
        (65535 < records.length ∨ 65535 < m.questions.length)) :=
  ⟨fun hr hq => answer_response_ok m records hr hq,
    answer_response_too_many_iff m records⟩

/-- Witness for C8 at a concrete request and record list. -/
theorem answer_response_spec_witness :
    testReqA.answer_response [recA] = Except.ok (DnsMessage.mk
      (DnsMessageHeader.mk 0x9A9A true DnsOpCode.Query true false
        true false DnsResponseCode.NoError 1 1 0 0)
      [⟨aaaExampleCom, DnsType.A, DnsClass.Internet⟩] [recA] [] [])
    ∧ ¬(testReqA.answer_response [recA] = Except.error DnsError.TooManyAnswers
        ∨ testReqA.answer_response [recA] = Except.error DnsError.TooManyQuestions) := by
  have h := answer_response_spec testReqA [recA]
  refine ⟨h.1 (by decide) (by decide), ?_⟩
  intro hc
  have := h.2.mp hc
  revert this
  decide

/-! ### C1: process_request rejection order and conditions -/

/-- C1: `process_request` rejects, in this order: `NotARequest` when the
request header's response flag is set; then `InvalidOpCode` when the opcode
is not `Query`; then `NoQuestion` when the question list is empty; and with a
non-empty question list the result is `NotFound` exactly when the first
question's name is absent from the zone table.  The final equation shows the
whole outcome is determined by the first question alone — later questions are
never consulted for the lookup. -/
theorem process_request_rejections (zt : List (DnsName × DnsRecord))
    (rq : DnsMessage) :
    (rq.header.is_response = true →
      process_request zt rq = Except.error DnsError.NotARequest)
    ∧ (rq.header.is_response = false → rq.header.op_code ≠ DnsOpCode.Query →
      process_request zt rq = Except.error DnsError.InvalidOpCode)
    ∧ (rq.header.is_response = false → rq.header.op_code = DnsOpCode.Query →
      rq.questions = [] →
      process_request zt rq = Except.error DnsError.NoQuestion)
    ∧ (∀ q qs, rq.header.is_response = false → rq.header.op_code = DnsOpCode.Query →
      rq.questions = q :: qs →
      ((process_request zt rq = Except.error DnsError.NotFound ↔
          get_vec zt q.name = none)
        ∧ process_request zt rq =
            (match get_vec zt q.name with
             | none => Except.error DnsError.NotFound
             | some records =>
               if q.typ = DnsType.ANY then rq.answer_response records
               else rq.answer_response
                 (records.filter (fun record => record.typ = q.typ))))) := by
  refine ⟨?_, ?_, ?_, ?_⟩
  · intro h; simp [process_request, h]
  · intro h hop; simp [process_request, h, hop]
  · intro h hop hq; simp [process_request, h, hop, hq]
  · intro q qs h hop hq
    have heq : process_request zt rq =
        (match get_vec zt q.name with
         | none => Except.error DnsError.NotFound
         | some records =>
           if q.typ = DnsType.ANY then rq.answer_response records
           else rq.answer_response
             (records.filter (fun record => record.typ = q.typ))) := by
      simp [process_request, h, hop, hq]
    refine ⟨?_, heq⟩
    rw [heq]
    cases hget : get_vec zt q.name with
    | none => simp
    | some records =>
      simp only [hget]
      constructor
      · intro hc
        exfalso
        split at hc
        · exact answer_response_ne_notfound rq records hc
        · exact answer_response_ne_notfound rq _ hc
      · intro hc; cases hc

/-- Witness for C1: the four branches at concrete inputs, with all
hypotheses discharged there. -/
theorem process_request_rejections_witness :
    process_request testZone
      { testReqA with header := { testReqHeader with is_response := true } } =
      Except.error DnsError.NotARequest
    ∧ process_request testZone
        { testReqA with header := { testReqHeader with op_code := .Status } } =
        Except.error DnsError.InvalidOpCode
    ∧ process_request testZone { testReqA with questions := [] } =
        Except.error DnsError.NoQuestion
    ∧ (process_request testZone
        { testReqA with questions := [⟨⟨[98]⟩, DnsType.A, DnsClass.Internet⟩] } =
          Except.error DnsError.NotFound ↔
        get_vec testZone ⟨[98]⟩ = none) := by
  refine ⟨?_, ?_, ?_, ?_⟩
  · exact (process_request_rejections testZone _).1 rfl
  · exact (process_request_rejections testZone _).2.1 rfl (by decide)
  · exact (process_request_rejections testZone _).2.2.1 rfl rfl rfl
  · exact ((process_request_rejections testZone _).2.2.2
      ⟨⟨[98]⟩, DnsType.A, DnsClass.Internet⟩ [] rfl rfl rfl).1

/-! ### C2: process_request answer construction -/

/-- C2: past the rejection checks and with the first question's name present
in the zone table, `process_request` never yields `NotFound`; with an `ANY`
question type it answers with every record stored for the name in
insertion order, otherwise with exactly the records whose type equals the
question type (insertion order preserved) — and an empty filtered set still
yields a successful answer message with zero answer records. -/
theorem process_request_answers (zt : List (DnsName × DnsRecord))
    (rq : DnsMessage) (q : DnsQuestion) (qs : List DnsQuestion)
    (records : List DnsRecord)
    (hresp : rq.header.is_response = false)
    (hop : rq.header.op_code = DnsOpCode.Query)
    (hq : rq.questions = q :: qs)
    (hget : get_vec zt q.name = some records) :
    process_request zt rq ≠ Except.error DnsError.NotFound
    ∧ (q.typ = DnsType.ANY → records.length ≤ 65535 →
        rq.questions.length ≤ 65535 →
        process_request zt rq = Except.ok (DnsMessage.mk
          (DnsMessageHeader.mk rq.header.id true rq.header.op_code true false
            rq.header.recursion_desired false DnsResponseCode.NoError
            rq.questions.length records.length 0 0)
          rq.questions records [] []))
    ∧ (q.typ ≠ DnsType.ANY →
        (records.filter (fun record => record.typ = q.typ)).length ≤ 65535 →
        rq.questions.length ≤ 65535 →
        process_request zt rq = Except.ok (DnsMessage.mk
          (DnsMessageHeader.mk rq.header.id true rq.header.op_code true false
            rq.header.recursion_desired false DnsResponseCode.NoError
            rq.questions.length
            (records.filter (fun record => record.typ = q.typ)).length 0 0)
          rq.questions (records.filter (fun record => record.typ = q.typ))
          [] [])) := by
  have heq : process_request zt rq =
      (if q.typ = DnsType.ANY then rq.answer_response records
       else rq.answer_response
         (records.filter (fun record => record.typ = q.typ))) := by
    simp [process_request, hresp, hop, hq, hget]
  refine ⟨?_, ?_, ?_⟩
  · rw [heq]
    split
    · exact answer_response_ne_notfound rq records
    · exact answer_response_ne_notfound rq _
  · intro hany hr hqc
    rw [heq, if_pos hany, answer_response_ok rq records hr hqc]
  · intro hany hr hqc
    rw [heq, if_neg hany, answer_response_ok rq _ hr hqc]

/-- Witness for C2: against the test zone, an ANY query returns both records
in insertion order; an AAAA query returns only the AAAA record; an MX query
(no MX record exists for the name) returns a successful answer with zero
answer records, not `NotFound`. -/
theorem process_request_answers_witness :
    process_request testZone testReqANY = Except.ok (DnsMessage.mk
      (DnsMessageHeader.mk 0x9A9A true DnsOpCode.Query true false
        true false DnsResponseCode.NoError 1 2 0 0)
      [⟨aaaExampleCom, DnsType.ANY, DnsClass.Internet⟩] [recA, recAAAA] [] [])
    ∧ process_request testZone
        { testReqA with questions := [⟨aaaExampleCom, DnsType.MX, DnsClass.Internet⟩] } =
        Except.ok (DnsMessage.mk
          (DnsMessageHeader.mk 0x9A9A true DnsOpCode.Query true false
            true false DnsResponseCode.NoError 1 0 0 0)
          [⟨aaaExampleCom, DnsType.MX, DnsClass.Internet⟩] [] [] [])
    ∧ process_request testZone testReqANY ≠ Except.error DnsError.NotFound := by
  refine ⟨?_, ?_, ?_⟩
  · have h := (process_request_answers testZone testReqANY
      ⟨aaaExampleCom, DnsType.ANY, DnsClass.Internet⟩ [] [recA, recAAAA]
      rfl rfl rfl (by decide)).2.1 rfl (by decide) (by decide)
    exact h
  · have h := (process_request_answers testZone
      { testReqA with questions := [⟨aaaExampleCom, DnsType.MX, DnsClass.Internet⟩] }
      ⟨aaaExampleCom, DnsType.MX, DnsClass.Internet⟩ [] [recA, recAAAA]
      rfl rfl rfl (by decide)).2.2 (by decide) (by decide) (by decide)
    exact h
  · exact (process_request_answers testZone testReqANY
      ⟨aaaExampleCom, DnsType.ANY, DnsClass.Internet⟩ [] [recA, recAAAA]
      rfl rfl rfl (by decide)).1

/-! ### Wire-image helpers for the encode/decode round-trip

Pure descriptions of the bytes each `write` method emits, with
characterization lemmas `... = Except.ok out' → out' = out ++ wire`. -/

/-- Big-endian bytes of a 16-bit value. -/
def u16Bytes (v : Nat) : List Nat := [v / 256 % 256, v % 256]

/-- Big-endian bytes of a 32-bit value. -/
def u32Bytes (v : Nat) : List Nat :=
  [v / 16777216 % 256, v / 65536 % 256, v / 256 % 256, v % 256]

/-- The name framing: each label length-prefixed, terminated by a zero. -/
def encLabels : List (List Nat) → List Nat
  | [] => [0]
  | l :: ls => l.length :: (l ++ encLabels ls)

/-- The wire image of a name. -/
def nameWire (n : DnsName) : List Nat := encLabels (n.inner.splitOn 46)

/-- The wire image of a question. -/
def questionWire (q : DnsQuestion) : List Nat :=
  nameWire q.name ++ u16Bytes q.typ.num ++ u16Bytes q.class_.num

/-- The wire image of a question list. -/
def questionsWire (qs : List DnsQuestion) : List Nat :=
  qs.foldr (fun q acc => questionWire q ++ acc) []

/-- The wire image of a record (class fixed to Internet, TTL fixed to 300;
the `Unknown` arm is never emitted because `write` fails on it). -/
def recordWire (rec : DnsRecord) : List Nat :=
  nameWire rec.name ++ u16Bytes rec.typ.num ++ u16Bytes 1 ++ u32Bytes 300 ++
    (match rec with
     | .A _ addr => u16Bytes addr.length ++ addr
     | .AAAA _ addr => u16Bytes addr.length ++ addr
     | .CNAME _ target => u16Bytes (nameWire target).length ++ nameWire target
     | .Unknown _ _ => [])

/-- The wire image of a record list. -/
def recordsWire (recs : List DnsRecord) : List Nat :=
  recs.foldr (fun rec acc => recordWire rec ++ acc) []

/-- The wire image of a header. -/
def headerWire (h : DnsMessageHeader) : List Nat :=
  u16Bytes h.id ++
  [(cond h.is_response 128 0) ||| ((h.op_code.num <<< 3) % 256)
      ||| (cond h.authoritative_answer 4 0) ||| (cond h.truncated 2 0)
      ||| (cond h.recursion_desired 1 0),
    (cond h.recursion_available 128 0) ||| h.response_code.num] ++
  u16Bytes h.question_count ++ u16Bytes h.answer_count ++
  u16Bytes h.name_server_count ++ u16Bytes h.additional_count

/-- The wire image of a whole message. -/
def messageWire (m : DnsMessage) : List Nat :=
  headerWire m.header ++ questionsWire m.questions ++
    recordsWire (m.answers ++ m.name_servers ++ m.additional)

/-- Side conditions recorded by a successful record write: the CNAME RDATA
fits a 16-bit length, and `Unknown` records can never be written. -/
def recOkSide : DnsRecord → Prop
  | .CNAME _ target => (nameWire target).length ≤ 65535
  | .Unknown _ _ => False
  | _ => True

instance (rec : DnsRecord) : Decidable (recOkSide rec) := by
  unfold recOkSide; split <;> infer_instance

theorem writeBytes_eq_ok {cap : Nat} {out bs out' : List Nat}
    (h : writeBytes cap out bs = Except.ok out') : out' = out ++ bs := by
  unfold writeBytes at h
  split at h
  · cases h; rfl
  · cases h

theorem writeU16_eq_ok {cap : Nat} {out : List Nat} {v : Nat} {out' : List Nat}
    (h : writeU16 cap out v = Except.ok out') : out' = out ++ u16Bytes v :=
  writeBytes_eq_ok h

theorem writeU32_eq_ok {cap : Nat} {out : List Nat} {v : Nat} {out' : List Nat}
    (h : writeU32 cap out v = Except.ok out') : out' = out ++ u32Bytes v :=
  writeBytes_eq_ok h

theorem except_bind_ok {α β : Type} {x : Except DnsError α}
    {f : α → Except DnsError β} {b : β} (h : (x >>= f) = Except.ok b) :
    ∃ a, x = Except.ok a ∧ f a = Except.ok b := by
  cases x with
  | ok a => exact ⟨a, rfl, h⟩
  | error e => simp [bind, Except.bind] at h

theorem writeNameLabels_eq_ok {cap : Nat} (ls : List (List Nat)) :
    ∀ out out', writeNameLabels cap ls out = Except.ok out' →
      out' = out ++ encLabels ls := by
  induction ls with
  | nil =>
    intro out out' h
    unfold writeNameLabels at h
    simpa [encLabels] using writeBytes_eq_ok h
  | cons l ls ih =>
    intro out out' h
    unfold writeNameLabels at h
    split at h
    · cases h
    · obtain ⟨o1, h1, h⟩ := except_bind_ok h
      obtain ⟨o2, h2, h⟩ := except_bind_ok h
      have e1 := writeBytes_eq_ok h1
      have e2 := writeBytes_eq_ok h2
      have e3 := ih o2 out' h
      subst e1; subst e2; subst e3
      simp [encLabels]

theorem name_write_eq_ok {n : DnsName} {cap : Nat} {out out' : List Nat}
    (h : n.write cap out = Except.ok out') : out' = out ++ nameWire n :=
  writeNameLabels_eq_ok _ out out' h

theorem header_write_eq_ok {h : DnsMessageHeader} {cap : Nat} {out out' : List Nat}
    (hw : h.write cap out = Except.ok out') : out' = out ++ headerWire h := by
  unfold DnsMessageHeader.write at hw
  obtain ⟨o1, h1, hw⟩ := except_bind_ok hw
  obtain ⟨o2, h2, hw⟩ := except_bind_ok hw
  obtain ⟨o3, h3, hw⟩ := except_bind_ok hw
  obtain ⟨o4, h4, hw⟩ := except_bind_ok hw
  obtain ⟨o5, h5, hw⟩ := except_bind_ok hw
  obtain ⟨o6, h6, hw⟩ := except_bind_ok hw
  have e1 := writeBytes_eq_ok h1
  have e2 := writeBytes_eq_ok h2
  have e3 := writeBytes_eq_ok h3
  have e4 := writeU16_eq_ok h4
  have e5 := writeU16_eq_ok h5
  have e6 := writeU16_eq_ok h6
  have e7 := writeU16_eq_ok hw
  subst e1; subst e2; subst e3; subst e4; subst e5; subst e6; subst e7
  simp [headerWire, u16Bytes]

theorem write_rdata_eq_ok {cap : Nat} {bytes out out' : List Nat}
    (h : DnsRecord.write_rdata cap bytes out = Except.ok out') :
    out' = out ++ u16Bytes bytes.length ++ bytes ∧ bytes.length ≤ 65535 := by
  unfold DnsRecord.write_rdata at h
  split at h
  · cases h
  · obtain ⟨o1, h1, h⟩ := except_bind_ok h
    have e1 := writeU16_eq_ok h1
    have e2 := writeBytes_eq_ok h
    subst e1; subst e2
    exact ⟨rfl, by omega⟩

theorem record_write_eq_ok {rec : DnsRecord} {cap : Nat} {out out' : List Nat}
    (h : rec.write cap out = Except.ok out') :
    out' = out ++ recordWire rec ∧ recOkSide rec := by
  unfold DnsRecord.write at h
  obtain ⟨o1, h1, h⟩ := except_bind_ok h
  obtain ⟨o2, h2, h⟩ := except_bind_ok h
  obtain ⟨o3, h3, h⟩ := except_bind_ok h
  obtain ⟨o4, h4, h⟩ := except_bind_ok h
  have e1 := name_write_eq_ok h1
  have e2 := writeU16_eq_ok h2
  have e3 := writeU16_eq_ok h3
  have e4 := writeU32_eq_ok h4
  subst e1; subst e2; subst e3; subst e4
  cases rec with
  | A name addr =>
    obtain ⟨e5, hlen⟩ := write_rdata_eq_ok h
    subst e5
    refine ⟨?_, trivial⟩
    simp [recordWire, DnsRecord.name, DnsRecord.typ, DnsClass.num]
  | AAAA name addr =>
    obtain ⟨e5, hlen⟩ := write_rdata_eq_ok h
    subst e5
    refine ⟨?_, trivial⟩
    simp [recordWire, DnsRecord.name, DnsRecord.typ, DnsClass.num]
  | CNAME name target =>
    obtain ⟨tb, htb, h⟩ := except_bind_ok h
    have etb : tb = nameWire target := by
      have := name_write_eq_ok htb
      simpa using this
    subst etb
    obtain ⟨e5, hlen⟩ := write_rdata_eq_ok h
    subst e5
    refine ⟨?_, hlen⟩
    simp [recordWire, DnsRecord.name, DnsRecord.typ, DnsClass.num]
  | Unknown name typ => cases h

theorem writeRecords_eq_ok {cap : Nat} (recs : List DnsRecord) :
    ∀ out out', writeRecords cap recs out = Except.ok out' →
      out' = out ++ recordsWire recs ∧ ∀ rec ∈ recs, recOkSide rec := by
  induction recs with
  | nil =>
    intro out out' h
    unfold writeRecords at h
    cases h
    simp [recordsWire]
  | cons rec recs ih =>
    intro out out' h
    unfold writeRecords at h
    obtain ⟨o1, h1, h⟩ := except_bind_ok h
    obtain ⟨e1, hside⟩ := record_write_eq_ok h1
    subst e1
    obtain ⟨e2, hsides⟩ := ih _ _ h
    subst e2
    refine ⟨by simp [recordsWire], ?_⟩
    intro r hr
    rcases List.mem_cons.mp hr with hr | hr
    · exact hr ▸ hside
    · exact hsides r hr

theorem question_write_eq_ok {q : DnsQuestion} {cap : Nat} {out out' : List Nat}
    (h : q.write cap out = Except.ok out') : out' = out ++ questionWire q := by
  unfold DnsQuestion.write at h
  obtain ⟨o1, h1, h⟩ := except_bind_ok h
  obtain ⟨o2, h2, h⟩ := except_bind_ok h
  have e1 := name_write_eq_ok h1
  have e2 := writeU16_eq_ok h2
  have e3 := writeU16_eq_ok h
  subst e1; subst e2; subst e3
  simp [questionWire]

theorem writeQuestions_eq_ok {cap : Nat} (qs : List DnsQuestion) :
    ∀ out out', writeQuestions cap qs out = Except.ok out' →
      out' = out ++ questionsWire qs := by
  induction qs with
  | nil =>
    intro out out' h
    unfold writeQuestions at h
    cases h
    simp [questionsWire]
  | cons q qs ih =>
    intro out out' h
    unfold writeQuestions at h
    obtain ⟨o1, h1, h⟩ := except_bind_ok h
    have e1 := question_write_eq_ok h1
    subst e1
    have e2 := ih _ _ h
    subst e2
    simp [questionsWire]

theorem message_write_eq_ok {m : DnsMessage} {cap : Nat} {out out' : List Nat}
    (h : m.write cap out = Except.ok out') :
    out' = out ++ messageWire m
      ∧ ∀ rec ∈ m.answers ++ m.name_servers ++ m.additional, recOkSide rec := by
  unfold DnsMessage.write at h
  obtain ⟨o1, h1, h⟩ := except_bind_ok h
  obtain ⟨o2, h2, h⟩ := except_bind_ok h
  have e1 := header_write_eq_ok h1
  subst e1
  have e2 := writeQuestions_eq_ok _ _ _ h2
  subst e2
  obtain ⟨e3, hsides⟩ := writeRecords_eq_ok _ _ _ h
  subst e3
  exact ⟨by simp [messageWire], hsides⟩


/-! ### Reader lemmas: each `read` undoes the corresponding wire image -/

theorem readU16_wire (v : Nat) (rest : List Nat) (hv : v < 65536) :
    readU16 (u16Bytes v ++ rest) = (Except.ok v, rest) := by
  simp only [u16Bytes, List.cons_append, List.nil_append, readU16]
  have : v / 256 % 256 * 256 + v % 256 = v := by omega
  rw [this]

theorem readU32_wire (v : Nat) (rest : List Nat) (hv : v < 4294967296) :
    readU32 (u32Bytes v ++ rest) = (Except.ok v, rest) := by
  simp only [u32Bytes, List.cons_append, List.nil_append, readU32]
  have : ((v / 16777216 % 256 * 256 + v / 65536 % 256) * 256 + v / 256 % 256) * 256
      + v % 256 = v := by omega
  rw [this]

/-- A valid label is non-empty. -/
theorem valid_label_ne_nil {l : List Nat} (h : DnsName.is_valid_label l = true) :
    l ≠ [] := by
  intro hnil
  subst hnil
  simp [DnsName.is_valid_label] at h

/-- A valid label contains no dot byte. -/
theorem valid_label_no_dot {l : List Nat} (h : DnsName.is_valid_label l = true) :
    46 ∉ l := by
  intro hmem
  unfold DnsName.is_valid_label at h
  split at h
  · cases h
  · have hall := (Bool.and_elim_right (Bool.and_elim_left h))
    have := List.all_eq_true.mp hall 46 hmem
    simp [DnsName.is_letter_digit_hyphen, DnsName.is_letter_digit,
      DnsName.is_letter] at this

/-- The accumulator fold of `readNameLoop` over a list of labels. -/
def joinAcc (value : List Nat) (ls : List (List Nat)) : List Nat :=
  ls.foldl (fun acc l => if acc.isEmpty then l else acc ++ 46 :: l) value

/-- Dot-prefixed concatenation of labels. -/
def dotJoin : List (List Nat) → List Nat
  | [] => []
  | l :: ls => 46 :: l ++ dotJoin ls

/-- Dot-joined labels: empty for no labels, else head then dot-prefixed
tail. -/
def dotJoinAll : List (List Nat) → List Nat
  | [] => []
  | l :: ls => l ++ dotJoin ls

theorem joinAcc_ne_nil (ls : List (List Nat)) :
    ∀ acc : List Nat, acc ≠ [] → joinAcc acc ls = acc ++ dotJoin ls := by
  induction ls with
  | nil => intro acc h; simp [joinAcc, dotJoin]
  | cons l ls ih =>
    intro acc h
    have hne : acc.isEmpty = false := by
      cases acc
      · exact absurd rfl h
      · rfl
    show joinAcc (if acc.isEmpty then l else acc ++ 46 :: l) ls = _
    rw [hne]
    simp only [Bool.false_eq_true, if_false]
    rw [ih (acc ++ 46 :: l) (by simp)]
    simp [dotJoin]

theorem joinAcc_nil (ls : List (List Nat)) (h : ∀ l ∈ ls, l ≠ []) :
    joinAcc [] ls = dotJoinAll ls := by
  cases ls with
  | nil => rfl
  | cons l ls =>
    show joinAcc (if List.isEmpty [] then l else [] ++ 46 :: l) ls = _
    simp only [List.isEmpty_nil, if_true]
    rw [joinAcc_ne_nil ls l (h l (List.mem_cons_self l ls))]
    rfl

/-- Splitting on the dot byte then dot-joining restores the original
bytes. -/
theorem dotJoinAll_splitOn (s : List Nat) :
    dotJoinAll (s.splitOn 46) = s := by
  rw [List.splitOn]
  induction s with
  | nil => rfl
  | cons a s ih =>
    rw [List.splitOnP_cons]
    obtain ⟨h, t, hht⟩ : ∃ h t, List.splitOnP (fun x => x == 46) s = h :: t := by
      cases hs : List.splitOnP (fun x => x == 46) s with
      | nil => exact absurd hs (List.splitOnP_ne_nil _ s)
      | cons h t => exact ⟨h, t, rfl⟩
    rw [hht] at ih
    by_cases ha : a = 46
    · subst ha
      simp only [beq_self_eq_true, if_true]
      rw [hht]
      simp only [dotJoinAll] at ih ⊢
      simp [dotJoin, ih]
    · have hne : ((a : Nat) == 46) = false := by simpa using ha
      rw [hne]
      simp only [Bool.false_eq_true, if_false]
      rw [hht]
      simp only [List.modifyHead, dotJoinAll] at ih ⊢
      simp [ih]

/-- Validity of a name for wire round-tripping: at most 255 stored bytes,
at most 62 labels (the reader's 63-iteration bound needs one extra iteration
for the terminator), every label valid. -/
def NameValid (n : DnsName) : Prop :=
  n.inner.length ≤ 255
  ∧ (n.inner.splitOn 46).length ≤ 62
  ∧ ∀ l ∈ n.inner.splitOn 46, DnsName.is_valid_label l = true

instance (n : DnsName) : Decidable (NameValid n) := by
  unfold NameValid; infer_instance

/-- Reading the encoding of a label list continues the accumulator fold:
the central induction behind the name round-trip. -/
theorem readNameLoop_enc (ls : List (List Nat)) :
    ∀ (value rest : List Nat) (fuel : Nat),
      ls.length < fuel →
      (∀ l ∈ ls, DnsName.is_valid_label l = true) →
      (joinAcc value ls).length ≤ 255 →
      readNameLoop fuel value (encLabels ls ++ rest) =
        (Except.ok ⟨joinAcc value ls⟩, rest) := by
  induction ls with
  | nil =>
    intro value rest fuel hfuel hvalid hlen
    cases fuel with
    | zero => omega
    | succ f =>
      show readNameLoop (f + 1) value ((0 :: []) ++ rest) = _
      rw [readNameLoop.eq_def]
      have : joinAcc value [] = value := rfl
      rw [this] at hlen
      simp only [List.cons_append, List.nil_append]
      rw [if_pos trivial, if_neg (by omega)]
      rfl
  | cons l ls ih =>
    intro value rest fuel hfuel hvalid hlen
    cases fuel with
    | zero => simp at hfuel
    | succ f =>
      have hl : DnsName.is_valid_label l = true := hvalid l (List.mem_cons_self l ls)
      have hlne : l ≠ [] := valid_label_ne_nil hl
      have hlen0 : l.length ≠ 0 := by
        intro hc
        exact hlne (List.length_eq_zero.mp hc)
      show readNameLoop (f + 1) value ((l.length :: (l ++ encLabels ls)) ++ rest) = _
      rw [readNameLoop.eq_def]
      simp only [List.cons_append, List.append_assoc]
      rw [if_neg hlen0]
      rw [if_neg (by simp only [List.length_append]; omega)]
      have htake : (l ++ (encLabels ls ++ rest)).take l.length = l := List.take_left l _
      have hdrop : (l ++ (encLabels ls ++ rest)).drop l.length = encLabels ls ++ rest :=
        List.drop_left l _
      rw [htake, hdrop, if_pos hl]
      have hstep : (if value.isEmpty then l else value ++ 46 :: l) =
          joinAcc value [l] := by
        rfl
      have hjoin : joinAcc (if value.isEmpty then l else value ++ 46 :: l) ls =
          joinAcc value (l :: ls) := rfl
      rw [ih _ rest f (by simpa using hfuel)
        (fun x hx => hvalid x (List.mem_cons_of_mem l hx)) (by rw [hjoin]; exact hlen)]
      rw [hjoin]

/-- Lemma: `DnsName::read` undoes `DnsName::write` for any valid name, leaving the
trailing bytes untouched. -/
theorem name_read_wire (n : DnsName) (rest : List Nat) (hv : NameValid n) :
    DnsName.read (nameWire n ++ rest) = (Except.ok n, rest) := by
  obtain ⟨hlen, hcount, hvalid⟩ := hv
  have hne : ∀ l ∈ n.inner.splitOn 46, l ≠ [] :=
    fun l hl => valid_label_ne_nil (hvalid l hl)
  have hjoin : joinAcc [] (n.inner.splitOn 46) = n.inner := by
    rw [joinAcc_nil _ hne, dotJoinAll_splitOn]
  unfold DnsName.read nameWire
  rw [readNameLoop_enc (n.inner.splitOn 46) [] rest 63 (by omega) hvalid
    (by rw [hjoin]; exact hlen)]
  rw [hjoin]

/-! ### Header bit-packing round-trip -/

theorem packFlags1_bits : ∀ opn : Nat, opn < 16 → ∀ (r a t d : Bool),
    (((cond r 128 0) ||| ((opn <<< 3) % 256) ||| (cond a 4 0) ||| (cond t 2 0)
        ||| (cond d 1 0)) >>> 7 == 1) = r
    ∧ (((cond r 128 0) ||| ((opn <<< 3) % 256) ||| (cond a 4 0) ||| (cond t 2 0)
        ||| (cond d 1 0)) >>> 3) &&& 15 = opn
    ∧ ((((cond r 128 0) ||| ((opn <<< 3) % 256) ||| (cond a 4 0) ||| (cond t 2 0)
        ||| (cond d 1 0)) >>> 2) &&& 1 == 1) = a
    ∧ ((((cond r 128 0) ||| ((opn <<< 3) % 256) ||| (cond a 4 0) ||| (cond t 2 0)
        ||| (cond d 1 0)) >>> 1) &&& 1 == 1) = t
    ∧ (((cond r 128 0) ||| ((opn <<< 3) % 256) ||| (cond a 4 0) ||| (cond t 2 0)
        ||| (cond d 1 0)) &&& 1 == 1) = d := by
  decide

theorem packFlags2_bits : ∀ rc : Nat, rc < 16 → ∀ ra : Bool,
    ((((cond ra 128 0) ||| rc) >>> 7 == 1) = ra)
    ∧ ((cond ra 128 0) ||| rc) &&& 15 = rc := by
  decide

/-- Validity of a header for wire round-tripping: 16-bit id and counts,
4-bit opcode and response code, both canonical (in the image of
`from_number`). -/
def HeaderValid (h : DnsMessageHeader) : Prop :=
  h.id < 65536
  ∧ h.op_code.num < 16 ∧ DnsOpCode.new h.op_code.num = h.op_code
  ∧ h.response_code.num < 16
  ∧ DnsResponseCode.new h.response_code.num = h.response_code
  ∧ h.question_count < 65536 ∧ h.answer_count < 65536
  ∧ h.name_server_count < 65536 ∧ h.additional_count < 65536

instance (h : DnsMessageHeader) : Decidable (HeaderValid h) := by
  unfold HeaderValid; infer_instance

theorem header_read_wire (h : DnsMessageHeader) (rest : List Nat)
    (hv : HeaderValid h) :
    DnsMessageHeader.read (headerWire h ++ rest) = (Except.ok h, rest) := by
  obtain ⟨hid, hopn, hopc, hrcn, hrcc, hc1, hc2, hc3, hc4⟩ := hv
  obtain ⟨e1, e2, e3, e4, e5⟩ :=
    packFlags1_bits h.op_code.num hopn h.is_response h.authoritative_answer
      h.truncated h.recursion_desired
  obtain ⟨f1, f2⟩ := packFlags2_bits h.response_code.num hrcn h.recursion_available
  unfold DnsMessageHeader.read headerWire
  simp only [List.append_assoc, List.cons_append, List.nil_append]
  rw [readU16_wire h.id _ hid]
  simp only [rbind, readU8]
  rw [e1, e2, e3, e4, e5, f1, f2, hopc, hrcc]
  rw [readU16_wire h.question_count _ hc1]
  simp only [rbind]
  rw [readU16_wire h.answer_count _ hc2]
  simp only [rbind]
  rw [readU16_wire h.name_server_count _ hc3]
  simp only [rbind]
  rw [readU16_wire h.additional_count _ hc4]

/-- Validity of a question for wire round-tripping. -/
def QuestionValid (q : DnsQuestion) : Prop :=
  NameValid q.name ∧ q.typ.num < 65536 ∧ DnsType.new q.typ.num = q.typ
  ∧ (q.class_ = DnsClass.Internet ∨ q.class_ = DnsClass.Any)

instance (q : DnsQuestion) : Decidable (QuestionValid q) := by
  unfold QuestionValid; infer_instance

theorem question_read_wire (q : DnsQuestion) (rest : List Nat)
    (hv : QuestionValid q) :
    DnsQuestion.read (questionWire q ++ rest) = (Except.ok q, rest) := by
  obtain ⟨hname, htypn, htypc, hclass⟩ := hv
  have hclassn : q.class_.num < 65536 := by
    rcases hclass with hc | hc <;> rw [hc] <;> decide
  have hclassc : DnsClass.new q.class_.num = q.class_ := by
    rcases hclass with hc | hc <;> rw [hc] <;> rfl
  unfold DnsQuestion.read questionWire
  simp only [List.append_assoc]
  rw [name_read_wire q.name _ hname]
  simp only [rbind, DnsType.read, DnsClass.read]
  rw [readU16_wire q.typ.num _ htypn]
  simp only [rbind]
  rw [htypc]
  rw [readU16_wire q.class_.num _ hclassn]
  simp only [rbind]
  rw [hclassc]
  rw [if_neg (by rcases hclass with hc | hc <;> rw [hc] <;> simp)]

/-- Validity of a record for wire round-tripping: a valid owner name, then
the payload shape the Rust types force (4/16 octets, a valid CNAME target);
`Unknown` records are excluded — they cannot be written at all. -/
def RecordValid (rec : DnsRecord) : Prop :=
  NameValid rec.name ∧
  match rec with
  | .A _ addr => addr.length = 4
  | .AAAA _ addr => addr.length = 16
  | .CNAME _ target => NameValid target
  | .Unknown _ _ => False

instance (rec : DnsRecord) : Decidable (RecordValid rec) := by
  unfold RecordValid; cases rec <;> simp <;> infer_instance

theorem record_read_wire (rec : DnsRecord) (rest : List Nat)
    (hv : RecordValid rec) (hside : recOkSide rec) :
    DnsRecord.read (recordWire rec ++ rest) = (Except.ok rec, rest) := by
  obtain ⟨hname, hpayload⟩ := hv
  cases rec with
  | A name addr =>
    unfold DnsRecord.read recordWire
    simp only [DnsRecord.name, DnsRecord.typ, List.append_assoc]
    rw [name_read_wire name _ hname]
    simp only [rbind, DnsType.read, DnsClass.read]
    rw [readU16_wire (DnsType.num DnsType.A) _ (by decide)]
    simp only [rbind]
    rw [readU16_wire 1 _ (by decide)]
    simp only [rbind]
    rw [if_neg (by simp [DnsClass.new])]
    rw [readU32_wire 300 _ (by decide)]
    simp only [rbind, DnsRecord.read_rdata]
    have hlen : addr.length = 4 := hpayload
    rw [readU16_wire addr.length _ (by omega)]
    simp only [rbind]
    rw [if_neg (by simp only [List.length_append]; omega)]
    rw [List.take_left, List.drop_left]
    show (if addr.length < 4 then _ else _) = _
    rw [if_neg (by omega)]
    rw [show addr.take 4 = addr from by rw [← hlen]; exact List.take_length addr]
  | AAAA name addr =>
    unfold DnsRecord.read recordWire
    simp only [DnsRecord.name, DnsRecord.typ, List.append_assoc]
    rw [name_read_wire name _ hname]
    simp only [rbind, DnsType.read, DnsClass.read]
    rw [readU16_wire (DnsType.num DnsType.AAAA) _ (by decide)]
    simp only [rbind]
    rw [readU16_wire 1 _ (by decide)]
    simp only [rbind]
    rw [if_neg (by simp [DnsClass.new])]
    rw [readU32_wire 300 _ (by decide)]
    simp only [rbind, DnsRecord.read_rdata]
    have hlen : addr.length = 16 := hpayload
    rw [readU16_wire addr.length _ (by omega)]
    simp only [rbind]
    rw [if_neg (by simp only [List.length_append]; omega)]
    rw [List.take_left, List.drop_left]
    show (if addr.length < 16 then _ else _) = _
    rw [if_neg (by omega)]
    rw [show addr.take 16 = addr from by rw [← hlen]; exact List.take_length addr]
  | CNAME name target =>
    have htv : NameValid target := hpayload
    have hlen : (nameWire target).length ≤ 65535 := hside
    unfold DnsRecord.read recordWire
    simp only [DnsRecord.name, DnsRecord.typ, List.append_assoc]
    rw [name_read_wire name _ hname]
    simp only [rbind, DnsType.read, DnsClass.read]
    rw [readU16_wire (DnsType.num DnsType.CNAME) _ (by decide)]
    simp only [rbind]
    rw [readU16_wire 1 _ (by decide)]
    simp only [rbind]
    rw [if_neg (by simp [DnsClass.new])]
    rw [readU32_wire 300 _ (by decide)]
    simp only [rbind, DnsRecord.read_rdata]
    rw [readU16_wire (nameWire target).length _ (by omega)]
    simp only [rbind]
    rw [if_neg (by simp only [List.length_append]; omega)]
    rw [List.take_left, List.drop_left]
    have hread : DnsName.read (nameWire target) = (Except.ok target, []) := by
      have := name_read_wire target [] htv
      simpa using this
    show (match (DnsName.read (nameWire target)).1 with
      | Except.ok t => (Except.ok (DnsRecord.CNAME name t), rest)
      | Except.error e => (Except.error e, rest)) = _
    rw [hread]
  | Unknown name typ => cases hpayload

theorem readQuestions_wire (qs : List DnsQuestion) :
    ∀ rest : List Nat, (∀ q ∈ qs, QuestionValid q) →
      readQuestions qs.length (questionsWire qs ++ rest) = (Except.ok qs, rest) := by
  induction qs with
  | nil =>
    intro rest _
    simp [readQuestions, questionsWire]
  | cons q qs ih =>
    intro rest h
    show readQuestions (qs.length + 1) ((questionWire q ++ questionsWire qs) ++ rest) = _
    rw [readQuestions, List.append_assoc]
    rw [question_read_wire q _ (h q (List.mem_cons_self q qs))]
    simp only [rbind]
    rw [ih rest (fun x hx => h x (List.mem_cons_of_mem q hx))]

theorem readRecords_wire (recs : List DnsRecord) :
    ∀ rest : List Nat, (∀ rec ∈ recs, RecordValid rec) →
      (∀ rec ∈ recs, recOkSide rec) →
      readRecords recs.length (recordsWire recs ++ rest) = (Except.ok recs, rest) := by
  induction recs with
  | nil =>
    intro rest _ _
    simp [readRecords, recordsWire]
  | cons rec recs ih =>
    intro rest h hs
    show readRecords (recs.length + 1) ((recordWire rec ++ recordsWire recs) ++ rest) = _
    rw [readRecords, List.append_assoc]
    rw [record_read_wire rec _ (h rec (List.mem_cons_self rec recs))
      (hs rec (List.mem_cons_self rec recs))]
    simp only [rbind]
    rw [ih rest (fun x hx => h x (List.mem_cons_of_mem rec hx))
      (fun x hx => hs x (List.mem_cons_of_mem rec hx))]

theorem readAdditional_wire (recs : List DnsRecord) :
    ∀ rest : List Nat, (∀ rec ∈ recs, RecordValid rec) →
      (∀ rec ∈ recs, recOkSide rec) →
      readAdditional recs.length (recordsWire recs ++ rest) = (recs, rest) := by
  induction recs with
  | nil =>
    intro rest _ _
    simp [readAdditional, recordsWire]
  | cons rec recs ih =>
    intro rest h hs
    show readAdditional (recs.length + 1) ((recordWire rec ++ recordsWire recs) ++ rest) = _
    rw [readAdditional, List.append_assoc]
    rw [record_read_wire rec _ (h rec (List.mem_cons_self rec recs))
      (hs rec (List.mem_cons_self rec recs))]
    simp only [ih rest (fun x hx => h x (List.mem_cons_of_mem rec hx))
      (fun x hx => hs x (List.mem_cons_of_mem rec hx))]

theorem recordsWire_append (xs ys : List DnsRecord) :
    recordsWire (xs ++ ys) = recordsWire xs ++ recordsWire ys := by
  induction xs with
  | nil => simp [recordsWire]
  | cons x xs ih =>
    show recordWire x ++ recordsWire (xs ++ ys) = _
    rw [ih]
    simp [recordsWire]

/-- Validity of a message for wire round-tripping: a valid header whose four
counts equal the section list lengths, valid questions, valid records. -/
def MsgValid (m : DnsMessage) : Prop :=
  HeaderValid m.header
  ∧ m.header.question_count = m.questions.length
  ∧ m.header.answer_count = m.answers.length
  ∧ m.header.name_server_count = m.name_servers.length
  ∧ m.header.additional_count = m.additional.length
  ∧ (∀ q ∈ m.questions, QuestionValid q)
  ∧ (∀ rec ∈ m.answers ++ m.name_servers ++ m.additional, RecordValid rec)

instance (m : DnsMessage) : Decidable (MsgValid m) := by
  unfold MsgValid; infer_instance

theorem message_read_wire (m : DnsMessage) (rest : List Nat) (hv : MsgValid m)
    (hsides : ∀ rec ∈ m.answers ++ m.name_servers ++ m.additional, recOkSide rec) :
    DnsMessage.read (messageWire m ++ rest) = (Except.ok m, rest) := by
  obtain ⟨hh, hqc, hac, hnc, hdc, hq, hr⟩ := hv
  have hra : ∀ rec ∈ m.answers, RecordValid rec := by
    intro rec hrec; exact hr rec (by simp [hrec])
  have hrn : ∀ rec ∈ m.name_servers, RecordValid rec := by
    intro rec hrec; exact hr rec (by simp [hrec])
  have hrd : ∀ rec ∈ m.additional, RecordValid rec := by
    intro rec hrec; exact hr rec (by simp [hrec])
  have hsa : ∀ rec ∈ m.answers, recOkSide rec := by
    intro rec hrec; exact hsides rec (by simp [hrec])
  have hsn : ∀ rec ∈ m.name_servers, recOkSide rec := by
    intro rec hrec; exact hsides rec (by simp [hrec])
  have hsd : ∀ rec ∈ m.additional, recOkSide rec := by
    intro rec hrec; exact hsides rec (by simp [hrec])
  unfold DnsMessage.read messageWire
  rw [recordsWire_append, recordsWire_append]
  simp only [List.append_assoc]
  rw [header_read_wire m.header _ hh]
  simp only [rbind]
  rw [hqc, readQuestions_wire m.questions _ hq]
  simp only [rbind]
  rw [hac, readRecords_wire m.answers _ hra hsa]
  simp only [rbind]
  rw [hnc, readRecords_wire m.name_servers _ hrn hsn]
  simp only [rbind]
  rw [hdc, readAdditional_wire m.additional _ hrd hsd]

/-! ### C3: decode after encode -/

/-- A name of 63 one-byte labels: 125 stored bytes, well within every length
bound, and accepted by `DnsName::new` — but one label more than
`DnsName::read` can consume, since its 63 loop iterations must include the
terminator. -/
def name63 : DnsName := ⟨dotJoinAll (List.replicate 63 [97])⟩

/-- A syntactically valid query message asking for `name63`: counts match the
section lists and the whole message occupies 143 of the 512 budget bytes. -/
def msg63 : DnsMessage where
  header := {
    id := 0
    is_response := false
    op_code := .Query
    authoritative_answer := false
    truncated := false
    recursion_desired := false
    recursion_available := false
    response_code := .NoError
    question_count := 1
    answer_count := 0
    name_server_count := 0
    additional_count := 0 }
  questions := [⟨name63, DnsType.A, DnsClass.Internet⟩]
  answers := []
  name_servers := []
  additional := []

/-- The bytes `msg63` encodes to. -/
def msg63Bytes : List Nat := (DnsMessage.write msg63 512 []).toOption.getD []

/-- C3 counterexample: `msg63` is syntactically valid — its name is accepted
by `DnsName::new` (labels of 1–63 bytes, 125 ≤ 255 total bytes), its header
counts equal its section list lengths — and it encodes successfully into 143
bytes, well within the 512-byte budget; yet decoding the encoding does not
return the message: it fails outright with `TooManyLabels`, because the
63-iteration label loop of `DnsName::read` cannot read 63 labels plus the
terminator. -/
theorem decode_encode_counterexample :
    DnsName.new name63.inner = some name63
    ∧ name63.inner.length = 125
    ∧ msg63.header.question_count = msg63.questions.length
    ∧ msg63.header.answer_count = msg63.answers.length
    ∧ msg63.header.name_server_count = msg63.name_servers.length
    ∧ msg63.header.additional_count = msg63.additional.length
    ∧ DnsMessage.write msg63 512 [] = Except.ok msg63Bytes
    ∧ msg63Bytes.length = 143
    ∧ (DnsMessage.read msg63Bytes).1 = Except.error DnsError.TooManyLabels := by
  set_option maxRecDepth 10000 in decide

/-- C3 amended: for every syntactically valid message — header counts equal
to the section list lengths, 16-bit id and counts, canonical 4-bit opcode and
response code, questions with Internet/Any class, canonical question types,
valid names **of at most 62 labels**, and address payloads of the shape the
record constructors enforce — that encodes successfully within the 512-byte
budget, decoding the encoding yields exactly the original message.  The
unknown-typed-record payload and the TTL need no exception here: an
unknown-typed record cannot be encoded at all (so validity excludes it), and
the decoded `DnsRecord` carries no TTL field (write emits the fixed 300).
The only change forced by the counterexample is the 62-label ceiling: the
claim fails for valid names of exactly 63 labels. -/
theorem decode_encode_roundtrip (m : DnsMessage) (bytes : List Nat)
    (hvalid : MsgValid m) (hwrite : m.write 512 [] = Except.ok bytes) :
    DnsMessage.read bytes = (Except.ok m, []) := by
  obtain ⟨heq, hsides⟩ := message_write_eq_ok hwrite
  subst heq
  have := message_read_wire m [] hvalid hsides
  simpa using this

/-- The response message of the repository's wire test, used as a round-trip
witness input. -/
def msgW : DnsMessage where
  header := {
    id := 0x9A9A
    is_response := true
    op_code := .Query
    authoritative_answer := true
    truncated := false
    recursion_desired := true
    recursion_available := false
    response_code := .NoError
    question_count := 1
    answer_count := 1
    name_server_count := 0
    additional_count := 0 }
  questions := [⟨aaaExampleCom, DnsType.A, DnsClass.Internet⟩]
  answers := [recA]
  name_servers := []
  additional := []

/-- The bytes `msgW` encodes to. -/
def msgWBytes : List Nat := (DnsMessage.write msgW 512 []).toOption.getD []

/-- Witness for the amended C3 theorem at a concrete message. -/
theorem decode_encode_roundtrip_witness :
    MsgValid msgW
    ∧ DnsMessage.write msgW 512 [] = Except.ok msgWBytes
    ∧ DnsMessage.read msgWBytes = (Except.ok msgW, []) :=
  ⟨by decide, by decide, decode_encode_roundtrip msgW msgWBytes (by decide) (by decide)⟩

/-! ### C7: record RDATA dispatch -/

/-- C7 counterexample: the claim says an A record requires **exactly** 4
RDATA bytes and otherwise fails with `Truncated`; but a record with a
5-byte RDATA decodes successfully (`read_exact` takes the first 4 bytes and
the 5th is silently discarded). -/
theorem record_rdata_counterexample :
    DnsRecord.read [1, 97, 0, 0, 1, 0, 1, 0, 0, 0, 0, 0, 5, 10, 0, 0, 1, 99] =
      (Except.ok (DnsRecord.A ⟨[97]⟩ [10, 0, 0, 1]), []) := by
  decide

/-- C7 amended: dispatching on the decoded type (owner name fixed to `a`),
an A record requires **at least** 4 RDATA bytes — fewer fail with
`Truncated`, the first 4 are taken and any excess is ignored; an AAAA record
requires at least 16 likewise; a CNAME record parses its RDATA as a nested
length-delimited `Name`, independent of the outer RDATA length. -/
theorem record_rdata_dispatch (rdata rest : List Nat)
    (hlen : rdata.length ≤ 65535) :
    (DnsRecord.read ([1, 97, 0, 0, 1, 0, 1, 0, 0, 0, 0] ++
        u16Bytes rdata.length ++ rdata ++ rest) =
      if rdata.length < 4 then (Except.error DnsError.Truncated, rest)
      else (Except.ok (DnsRecord.A ⟨[97]⟩ (rdata.take 4)), rest))
    ∧ (DnsRecord.read ([1, 97, 0, 0, 28, 0, 1, 0, 0, 0, 0] ++
        u16Bytes rdata.length ++ rdata ++ rest) =
      if rdata.length < 16 then (Except.error DnsError.Truncated, rest)
      else (Except.ok (DnsRecord.AAAA ⟨[97]⟩ (rdata.take 16)), rest))
    ∧ (DnsRecord.read ([1, 97, 0, 0, 5, 0, 1, 0, 0, 0, 0] ++
        u16Bytes rdata.length ++ rdata ++ rest) =
      match (DnsName.read rdata).1 with
      | Except.ok target => (Except.ok (DnsRecord.CNAME ⟨[97]⟩ target), rest)
      | Except.error e => (Except.error e, rest)) := by
  have hname : ∀ X : List Nat, DnsName.read (1 :: 97 :: 0 :: X) = (Except.ok ⟨[97]⟩, X) := by
    intro X
    have := name_read_wire ⟨[97]⟩ X (by decide)
    simpa [nameWire, encLabels] using this
  refine ⟨?_, ?_, ?_⟩ <;>
  · unfold DnsRecord.read
    simp only [List.cons_append, List.nil_append]
    rw [hname]
    simp only [rbind, DnsType.read, DnsClass.read, readU16, readU32,
      Nat.zero_mul, Nat.zero_add, DnsType.new, DnsClass.new]
    rw [if_neg (by simp)]
    unfold DnsRecord.read_rdata
    rw [List.append_assoc]
    rw [readU16_wire rdata.length _ (by omega)]
    simp only [rbind]
    rw [if_neg (by simp only [List.length_append]; omega)]
    rw [List.take_left, List.drop_left]

/-- Witness for the amended C7 theorem at a concrete 5-byte RDATA (an A
record takes the first 4 bytes, an AAAA record fails with `Truncated`) and a
concrete nested CNAME target. -/
theorem record_rdata_dispatch_witness :
    DnsRecord.read ([1, 97, 0, 0, 1, 0, 1, 0, 0, 0, 0] ++
        u16Bytes ([10, 0, 0, 1, 99] : List Nat).length ++ [10, 0, 0, 1, 99] ++ []) =
      (Except.ok (DnsRecord.A ⟨[97]⟩ [10, 0, 0, 1]), [])
    ∧ DnsRecord.read ([1, 97, 0, 0, 28, 0, 1, 0, 0, 0, 0] ++
        u16Bytes ([10, 0, 0, 1, 99] : List Nat).length ++ [10, 0, 0, 1, 99] ++ []) =
      (Except.error DnsError.Truncated, [])
    ∧ DnsRecord.read ([1, 97, 0, 0, 5, 0, 1, 0, 0, 0, 0] ++
        u16Bytes ([1, 98, 0] : List Nat).length ++ [1, 98, 0] ++ []) =
      (Except.ok (DnsRecord.CNAME ⟨[97]⟩ ⟨[98]⟩), []) := by
  refine ⟨?_, ?_, ?_⟩
  · have h := (record_rdata_dispatch [10, 0, 0, 1, 99] [] (by decide)).1
    simpa using h
  · have h := (record_rdata_dispatch [10, 0, 0, 1, 99] [] (by decide)).2.1
    simpa using h
  · have h := (record_rdata_dispatch [1, 98, 0] [] (by decide)).2.2
    rw [h]
    decide

/-! ### C6: strict sections versus the tolerant additional section -/

/-- C6: `DnsMessage::read` is strict for the question, answer and
name-server sections — a decode failure there fails the whole message with
the same error — but reads the additional section tolerantly: a failed
record read is skipped (the loop continues from wherever the failed read
stopped), reading stops when the declared count is exhausted, and a concrete
message declaring one malformed additional record still decodes
successfully with that record omitted. -/
theorem additional_section_tolerance :
    (∀ (buf : List Nat) (h : DnsMessageHeader) (r : List Nat) (e : DnsError)
        (r2 : List Nat),
      DnsMessageHeader.read buf = (Except.ok h, r) →
      readQuestions h.question_count r = (Except.error e, r2) →
      DnsMessage.read buf = (Except.error e, r2))
    ∧ (∀ (buf : List Nat) (h : DnsMessageHeader) (r : List Nat)
        (qs : List DnsQuestion) (r1 : List Nat) (e : DnsError) (r2 : List Nat),
      DnsMessageHeader.read buf = (Except.ok h, r) →
      readQuestions h.question_count r = (Except.ok qs, r1) →
      readRecords h.answer_count r1 = (Except.error e, r2) →
      DnsMessage.read buf = (Except.error e, r2))
    ∧ (∀ (buf : List Nat) (h : DnsMessageHeader) (r : List Nat)
        (qs : List DnsQuestion) (r1 : List Nat) (ans : List DnsRecord)
        (r2 : List Nat) (e : DnsError) (r3 : List Nat),
      DnsMessageHeader.read buf = (Except.ok h, r) →
      readQuestions h.question_count r = (Except.ok qs, r1) →
      readRecords h.answer_count r1 = (Except.ok ans, r2) →
      readRecords h.name_server_count r2 = (Except.error e, r3) →
      DnsMessage.read buf = (Except.error e, r3))
    ∧ (∀ (n : Nat) (buf : List Nat) (e : DnsError) (r : List Nat),
      DnsRecord.read buf = (Except.error e, r) →
      readAdditional (n + 1) buf = readAdditional n r)
    ∧ (∀ buf : List Nat, readAdditional 0 buf = ([], buf))
    ∧ DnsMessage.read [0, 0, 0, 0, 0, 0, 0, 0, 0, 0, 0, 1, 0] =
        (Except.ok (DnsMessage.mk
          (DnsMessageHeader.mk 0 false DnsOpCode.Query false false false false
            DnsResponseCode.NoError 0 0 0 1) [] [] [] []), []) := by
  refine ⟨?_, ?_, ?_, ?_, ?_, ?_⟩
  · intro buf h r e r2 hh hq
    unfold DnsMessage.read
    rw [hh]
    simp only [rbind]
    rw [hq]
  · intro buf h r qs r1 e r2 hh hq ha
    unfold DnsMessage.read
    rw [hh]
    simp only [rbind]
    rw [hq]
    simp only [rbind]
    rw [ha]
  · intro buf h r qs r1 ans r2 e r3 hh hq ha hn
    unfold DnsMessage.read
    rw [hh]
    simp only [rbind]
    rw [hq]
    simp only [rbind]
    rw [ha]
    simp only [rbind]
    rw [hn]
  · intro n buf e r hrec
    rw [readAdditional]
    rw [hrec]
  · intro buf
    rfl
  · decide

/-- Witness for C6: the strict parts applied at concrete truncated inputs
(a declared question / answer / name-server missing from the buffer fails
the whole message with `Truncated`), and the tolerant skip equation applied
at a concrete malformed record. -/
theorem additional_section_tolerance_witness :
    DnsMessage.read [0, 0, 0, 0, 0, 1, 0, 0, 0, 0, 0, 0] =
      (Except.error DnsError.Truncated, [])
    ∧ DnsMessage.read [0, 0, 0, 0, 0, 0, 0, 1, 0, 0, 0, 0] =
      (Except.error DnsError.Truncated, [])
    ∧ DnsMessage.read [0, 0, 0, 0, 0, 0, 0, 0, 0, 1, 0, 0] =
      (Except.error DnsError.Truncated, [])
    ∧ readAdditional 1 [0] = ([], []) := by
  refine ⟨?_, ?_, ?_, ?_⟩
  · exact additional_section_tolerance.1 _
      (DnsMessageHeader.mk 0 false DnsOpCode.Query false false false false
        DnsResponseCode.NoError 1 0 0 0) [] DnsError.Truncated []
      (by decide) (by decide)
  · exact additional_section_tolerance.2.1 _
      (DnsMessageHeader.mk 0 false DnsOpCode.Query false false false false
        DnsResponseCode.NoError 0 1 0 0) [] [] [] DnsError.Truncated []
      (by decide) (by decide) (by decide)
  · exact additional_section_tolerance.2.2.1 _
      (DnsMessageHeader.mk 0 false DnsOpCode.Query false false false false
        DnsResponseCode.NoError 0 0 1 0) [] [] [] [] [] DnsError.Truncated []
      (by decide) (by decide) (by decide) (by decide)
  · have h := additional_section_tolerance.2.2.2.1 0 [0] DnsError.Truncated []
      (by decide)
    rw [h]

    rfl

/-! ### C4: case normalization -/

theorem lowerByte_eq_46_iff (b : Nat) : lowerByte b = 46 ↔ b = 46 := by
  unfold lowerByte
  split <;> omega

theorem lowerByte_lower (b : Nat) : lowerByte (lowerByte b) = lowerByte b := by
  unfold lowerByte
  by_cases h : 65 ≤ b ∧ b ≤ 90
  · rw [if_pos h, if_neg (by omega)]
  · rw [if_neg h, if_neg h]

theorem is_letter_lower (b : Nat) : DnsName.is_letter (lowerByte b) = DnsName.is_letter b := by
  apply Bool.coe_iff_coe.mp
  unfold DnsName.is_letter lowerByte
  split <;> simp <;> omega

theorem is_letter_digit_lower (b : Nat) :
    DnsName.is_letter_digit (lowerByte b) = DnsName.is_letter_digit b := by
  apply Bool.coe_iff_coe.mp
  unfold DnsName.is_letter_digit DnsName.is_letter lowerByte
  split <;> simp <;> omega

theorem is_letter_digit_hyphen_lower (b : Nat) :
    DnsName.is_letter_digit_hyphen (lowerByte b) = DnsName.is_letter_digit_hyphen b := by
  apply Bool.coe_iff_coe.mp
  unfold DnsName.is_letter_digit_hyphen DnsName.is_letter_digit DnsName.is_letter lowerByte
  split <;> simp <;> omega

theorem lt128_lower (b : Nat) : (decide (lowerByte b < 128)) = (decide (b < 128)) := by
  apply Bool.coe_iff_coe.mp
  unfold lowerByte
  split <;> simp <;> omega

theorem getLastD_lower (l : List Nat) :
    ∀ a : Nat, (lowerBytes l).getLastD (lowerByte a) = lowerByte (l.getLastD a) := by
  induction l with
  | nil => intro a; rfl
  | cons x l ih =>
    intro a
    show (lowerByte x :: lowerBytes l).getLastD (lowerByte a) = _
    rw [List.getLastD_cons, List.getLastD_cons]
    exact ih x

theorem all_map_congr {α : Type} (f : α → α) (p : α → Bool)
    (h : ∀ x, p (f x) = p x) : ∀ l : List α, (l.map f).all p = l.all p := by
  intro l
  induction l with
  | nil => rfl
  | cons a l ih => simp [List.all_cons, h, ih]

theorem is_valid_label_lower (l : List Nat) :
    DnsName.is_valid_label (lowerBytes l) = DnsName.is_valid_label l := by
  unfold DnsName.is_valid_label
  cases l with
  | nil => rfl
  | cons a l =>
    have hlen : (lowerBytes (a :: l)).length = (a :: l).length := by
      simp [lowerBytes]
    rw [show (lowerBytes (a :: l)).isEmpty = (a :: l).isEmpty from rfl, hlen]
    split
    · rfl
    · have h1 : (lowerBytes (a :: l)).headD 0 = lowerByte a := rfl
      have h2 : (lowerBytes (a :: l)).getLastD 0 =
          lowerByte ((a :: l).getLastD 0) := by
        have := getLastD_lower (a :: l) 0
        simpa [show lowerByte 0 = 0 from rfl] using this
      have h3 : (lowerBytes (a :: l)).all DnsName.is_letter_digit_hyphen =
          (a :: l).all DnsName.is_letter_digit_hyphen :=
        all_map_congr lowerByte DnsName.is_letter_digit_hyphen
          is_letter_digit_hyphen_lower (a :: l)
      rw [h1, h2, h3, is_letter_lower, is_letter_digit_lower]
      rfl

theorem splitOnP_lower (s : List Nat) :
    List.splitOnP (fun x => x == 46) (lowerBytes s) =
      (List.splitOnP (fun x => x == 46) s).map lowerBytes := by
  induction s with
  | nil => rfl
  | cons a s ih =>
    show List.splitOnP (fun x => x == 46) (lowerByte a :: lowerBytes s) = _
    rw [List.splitOnP_cons, List.splitOnP_cons]
    have hcond : ((lowerByte a : Nat) == 46) = ((a : Nat) == 46) := by
      apply Bool.coe_iff_coe.mp
      simp [lowerByte_eq_46_iff]
    rw [hcond]
    by_cases ha : ((a : Nat) == 46) = true
    · rw [ha]
      simp only [if_true]
      rw [ih]
      rfl
    · rw [Bool.not_eq_true] at ha
      rw [ha]
      simp only [Bool.false_eq_true, if_false]
      rw [ih]
      cases List.splitOnP (fun x => x == 46) s with
      | nil => rfl
      | cons h t => rfl

theorem splitOn_lower (s : List Nat) :
    (lowerBytes s).splitOn 46 = (s.splitOn 46).map lowerBytes := by
  rw [List.splitOn, List.splitOn]
  exact splitOnP_lower s

theorem is_valid_name_lower (v : List Nat) :
    DnsName.is_valid_name (lowerBytes v) = DnsName.is_valid_name v := by
  unfold DnsName.is_valid_name
  have h1 : (lowerBytes v).all (fun b => decide (b < 128)) =
      v.all (fun b => decide (b < 128)) :=
    all_map_congr lowerByte (fun b => decide (b < 128)) lt128_lower v
  have h2 : ((lowerBytes v).splitOn 46).all DnsName.is_valid_label =
      (v.splitOn 46).all DnsName.is_valid_label := by
    rw [splitOn_lower]
    exact all_map_congr lowerBytes DnsName.is_valid_label is_valid_label_lower
      (v.splitOn 46)
  rw [h1, h2]

theorem lowerBytes_idem (v : List Nat) : lowerBytes (lowerBytes v) = lowerBytes v := by
  unfold lowerBytes
  rw [List.map_map]
  apply List.map_congr_left
  intro b _
  exact lowerByte_lower b

/-- Lemma: `DnsName::new` is insensitive to ASCII case: lowercasing the input first
does not change the result. -/
theorem dns_name_new_lower (v : List Nat) :
    DnsName.new (lowerBytes v) = DnsName.new v := by
  unfold DnsName.new
  have hcond : ((lowerBytes v).getLast? = some 46) ↔ (v.getLast? = some 46) := by
    show ((v.map lowerByte).getLast? = some 46) ↔ _
    rw [List.getLast?_map]
    cases v.getLast? with
    | none => simp
    | some b => simp [lowerByte_eq_46_iff]
  have htrim : (if (lowerBytes v).getLast? = some 46 then (lowerBytes v).dropLast
      else lowerBytes v) =
      lowerBytes (if v.getLast? = some 46 then v.dropLast else v) := by
    by_cases hc : v.getLast? = some 46
    · rw [if_pos (hcond.mpr hc), if_pos hc]
      show (v.map lowerByte).dropLast = _
      rw [← List.map_dropLast]
      rfl
    · rw [if_neg (fun h => hc (hcond.mp h)), if_neg hc]
  simp only [htrim]
  have hlen : (lowerBytes (if v.getLast? = some 46 then v.dropLast else v)).length
      = (if v.getLast? = some 46 then v.dropLast else v).length := by
    simp [lowerBytes]
  rw [hlen, is_valid_name_lower, lowerBytes_idem]

theorem lowerBytes_no_upper (v : List Nat) :
    (lowerBytes v).all (fun b => !(65 ≤ b && b ≤ 90)) = true := by
  show (v.map lowerByte).all _ = true
  rw [List.all_map]
  rw [List.all_eq_true]
  intro b _
  show (!(65 ≤ lowerByte b && lowerByte b ≤ 90)) = true
  apply Bool.coe_iff_coe.mp
  unfold lowerByte
  split <;> simp <;> omega

/-- C4 counterexample: the wire decoder does **not** lowercase.  Reading the
datagram name `A` (one label, byte 65) succeeds and returns the name with the
uppercase byte kept, which is a different value from the lowercase name the
text constructor produces for the same spelling — so a question name decoded
from a datagram is not case-normalized, and an uppercase query name misses
the zone table. -/
theorem dns_name_case_counterexample :
    (DnsName.read [1, 65, 0]).1 = Except.ok ⟨[65]⟩
    ∧ DnsName.new [65] = some ⟨[97]⟩
    ∧ (⟨[65]⟩ : DnsName) ≠ ⟨[97]⟩
    ∧ (⟨[65]⟩ : DnsName).inner.all (fun b => !(65 ≤ b && b ≤ 90)) = false
    ∧ get_vec [(⟨[97]⟩, DnsRecord.A ⟨[97]⟩ [10, 0, 0, 1])] ⟨[65]⟩ = none := by
  decide

/-- C4 amended: every name built by the text constructor `DnsName::new` is
lowercase ASCII, and `new` identifies spellings differing only in ASCII
case; but `DnsName::read` preserves the case of the wire bytes (it
validates labels without normalizing), so a decoded question name equals the
corresponding zone-table entry only when the datagram already spells the
name in lowercase. -/
theorem dns_name_case_amended :
    (∀ (v : List Nat) (n : DnsName), DnsName.new v = some n →
      n.inner.all (fun b => !(65 ≤ b && b ≤ 90)) = true)
    ∧ (∀ v w : List Nat, lowerBytes v = lowerBytes w →
      DnsName.new v = DnsName.new w)
    ∧ (∀ rest : List Nat, DnsName.read (1 :: 65 :: 0 :: rest) = (Except.ok ⟨[65]⟩, rest)) := by
  refine ⟨?_, ?_, ?_⟩
  · intro v n h
    have hunf : DnsName.new v =
        (if (if v.getLast? = some 46 then v.dropLast else v).length > 255
          ∨ DnsName.is_valid_name (if v.getLast? = some 46 then v.dropLast else v) = false
        then none
        else some ⟨lowerBytes (if v.getLast? = some 46 then v.dropLast else v)⟩) := rfl
    rw [hunf] at h
    by_cases hc : (if v.getLast? = some 46 then v.dropLast else v).length > 255
        ∨ DnsName.is_valid_name (if v.getLast? = some 46 then v.dropLast else v) = false
    · rw [if_pos hc] at h
      cases h
    · rw [if_neg hc] at h
      have hn := Option.some.inj h
      subst hn
      exact lowerBytes_no_upper _
  · intro v w h
    rw [← dns_name_new_lower v, ← dns_name_new_lower w, h]
  · intro rest
    rfl

/-- Witness for the amended C4 theorem: `new` lowercases `AB`, identifies
`A.B` with `a.b`, and `read` keeps the uppercase wire byte. -/
theorem dns_name_case_amended_witness :
    (DnsName.new [65, 66] = some ⟨[97, 98]⟩ ∧
      (⟨[97, 98]⟩ : DnsName).inner.all (fun b => !(65 ≤ b && b ≤ 90)) = true)
    ∧ DnsName.new [65, 46, 66] = DnsName.new [97, 46, 98]
    ∧ DnsName.read (1 :: 65 :: 0 :: []) = (Except.ok ⟨[65]⟩, []) := by
  refine ⟨⟨by decide, ?_⟩, ?_, ?_⟩
  · exact dns_name_case_amended.1 [65, 66] ⟨[97, 98]⟩ (by decide)
  · exact dns_name_case_amended.2.1 [65, 46, 66] [97, 46, 98] (by decide)
  · exact dns_name_case_amended.2.2 []
